import Mathlib

/-!
Verification of the Morgana agent-protocol orchestration core.

This file gives a shallow embedding of the Python sources and proves
properties about them:

* `scripts/morgana_command_poll.py` — the single-slot file mailbox
  (`MorganaCommandPoller`, `write_command`, `integration_check_point`);
* `scripts/morgana_events.py` — the append-only event logger
  (`MorganaEventLogger.task_started` / `task_completed` / `task_failed`);
* `morgana-protocol/archive/ipc-removal/scripts/morgana_subagent_bridge.py`
  — the sub-agent orchestrator (`SubAgentOrchestrator`).

Modelling conventions:
* filesystem effects are explicit state: the command file's content is a
  `SlotContent` field of a `Poller` record, the event files / jsonl log are
  lists of the emitted event types;
* `time.sleep` and the rate limiter only affect timing, never values, and
  are dropped;
* Python exceptions are `Except` values threaded together with the mutable
  state (an escaping exception does not roll state back);
* `uuid.uuid4()[:8]` is modelled as a fresh id drawn from a counter
  (`genId`); freshness of uuids becomes an explicit hypothesis where needed;
* Python text in the event logger is modelled as `List Char` so that
  `s[:n]` is `List.take n s`.
-/

namespace Morgana

/-- `CommandType` enum of `morgana_command_poll.py` (members pause / resume /
stop / status). -/
inductive CommandType where
  | pause
  | resume
  | stop
  | status
deriving DecidableEq, Repr

/-- `ExecutionState` enum of `morgana_command_poll.py`. -/
inductive ExecutionState where
  | running
  | paused
  | stopped
deriving DecidableEq, Repr

/-- `CommandType(command)` on a string: the enum-by-value lookup, raising
`ValueError` (here `none`) for a non-member. -/
def parseCommandType (s : String) : Option CommandType :=
  if s = "pause" then some CommandType.pause
  else if s = "resume" then some CommandType.resume
  else if s = "stop" then some CommandType.stop
  else if s = "status" then some CommandType.status
  else none

/-- The state-update clause of `MorganaCommandPoller._process_command`
(the `if`/`elif` chain at lines 145-150).  `STATUS` falls through to the
final else here because in the source it returns early without touching
`self.state`. -/
def applyCommand (state : ExecutionState) (cmd : CommandType) : ExecutionState :=
  if cmd = CommandType.pause ∧ state = ExecutionState.running then
    ExecutionState.paused
  else if cmd = CommandType.resume ∧ state = ExecutionState.paused then
    ExecutionState.running
  else if cmd = CommandType.stop then
    ExecutionState.stopped
  else
    state

/-- Folding a whole command sequence through the poller's transition
function. -/
def runCommands (state : ExecutionState) (cmds : List CommandType) : ExecutionState :=
  cmds.foldl applyCommand state

/-- The possible contents of the command file `commands.txt`, as seen by
`MorganaCommandPoller._read_commands`:
* `missing` — the file does not exist;
* `empty` — the file exists but its stripped content is empty;
* `malformed` — nonempty content on which `json.loads` raises;
* `scalarTruthy` / `scalarFalsy` — valid JSON that is not an object
  (number, string, array, null, bool), split by Python truthiness;
* `obj fields` — a JSON object; field values are modelled as strings
  (a non-string value behaves exactly like an invalid / falsy string in
  `_process_command`). -/
inductive SlotContent where
  | missing
  | empty
  | malformed
  | scalarTruthy
  | scalarFalsy
  | obj (fields : List (String × String))
deriving DecidableEq, Repr

/-- The Python value `_read_commands` hands to `poll_once` when it does not
return `None`. -/
inductive PyJson where
  | dict (fields : List (String × String))
  | nonDictTruthy
  | nonDictFalsy
deriving DecidableEq, Repr

/-- Python truthiness of a parsed command record (`if command_data:`):
a dict is truthy iff nonempty. -/
def PyJson.truthy : PyJson → Bool
  | PyJson.dict fields => !fields.isEmpty
  | PyJson.nonDictTruthy => true
  | PyJson.nonDictFalsy => false

/-- The exceptions our embedded fragment can let escape: `poll_once` calls
`command_data.get` on a value that is not a dict. -/
inductive PyError where
  | attributeError
deriving DecidableEq, Repr

/-- The mutable state of one `MorganaCommandPoller` plus the command file it
watches.  `log` records the `event_type` strings passed to
`logger.log_agent_event`, in order. -/
structure Poller where
  state : ExecutionState
  slot : SlotContent
  log : List String
deriving DecidableEq, Repr

/-- A freshly constructed poller (state starts `RUNNING`) watching an absent
command file. -/
def initPoller : Poller :=
  { state := ExecutionState.running, slot := SlotContent.missing, log := [] }

/-- `MorganaCommandPoller._read_commands`: `none` for a missing file, empty
content, or a JSON decode error (the last of these logs
`command_read_error`); otherwise the parsed value. -/
def readCommands (p : Poller) : Option PyJson × Poller :=
  match p.slot with
  | SlotContent.missing => (none, p)
  | SlotContent.empty => (none, p)
  | SlotContent.malformed =>
      (none, { p with log := p.log ++ ["command_read_error"] })
  | SlotContent.scalarTruthy => (some PyJson.nonDictTruthy, p)
  | SlotContent.scalarFalsy => (some PyJson.nonDictFalsy, p)
  | SlotContent.obj fields => (some (PyJson.dict fields), p)

/-- `MorganaCommandPoller._clear_commands`: unlink the command file. -/
def clearCommands (p : Poller) : Poller :=
  { p with slot := SlotContent.missing }

/-- `MorganaCommandPoller._process_command`.  On a non-dict argument,
`command_data.get("command")` raises `AttributeError`.  On a dict:
a missing or falsy `command` value returns silently; a value that is not a
`CommandType` member logs `invalid_command`; `STATUS` logs `status_request`
and returns; otherwise the state is updated per `applyCommand` and a change
is logged as `state_changed`.  (State-change callbacks are not modelled:
they cannot alter `self.state`, and their exceptions are caught.) -/
def processCommand (p : Poller) (commandData : PyJson) : Except PyError Poller :=
  match commandData with
  | PyJson.nonDictTruthy => Except.error PyError.attributeError
  | PyJson.nonDictFalsy => Except.error PyError.attributeError
  | PyJson.dict fields =>
    match fields.lookup "command" with
    | none => Except.ok p
    | some command =>
      if command = "" then Except.ok p
      else
        match parseCommandType command with
        | none => Except.ok { p with log := p.log ++ ["invalid_command"] }
        | some cmdType =>
          if cmdType = CommandType.status then
            Except.ok { p with log := p.log ++ ["status_request"] }
          else
            let newState := applyCommand p.state cmdType
            if p.state ≠ newState then
              Except.ok { p with state := newState, log := p.log ++ ["state_changed"] }
            else
              Except.ok { p with state := newState }

/-- `MorganaCommandPoller.poll_once`: read the slot; if the parsed record is
truthy, process it and clear the slot; return `self.state != STOPPED`.
The rate-limiting sleep affects timing only and is dropped.  An escaping
exception carries the poller state reached so far. -/
def pollOnce (p : Poller) : Except PyError Bool × Poller :=
  match readCommands p with
  | (some commandData, p1) =>
    if commandData.truthy then
      match processCommand p1 commandData with
      | Except.error e => (Except.error e, p1)
      | Except.ok p2 =>
          let p3 := clearCommands p2
          (Except.ok (p3.state ≠ ExecutionState.stopped), p3)
    else
      (Except.ok (p1.state ≠ ExecutionState.stopped), p1)
  | (none, p1) =>
      (Except.ok (p1.state ≠ ExecutionState.stopped), p1)

/-- `write_command`: serialize `{"command": command, "timestamp": ...}` and
overwrite the slot.  The timestamp string is a parameter. -/
def writeCommand (command : String) (timestamp : String) (p : Poller) : Poller :=
  { p with slot := SlotContent.obj [("command", command), ("timestamp", timestamp)] }

/-- `MorganaCommandPoller.should_pause`. -/
def shouldPause (p : Poller) : Bool :=
  p.state = ExecutionState.paused

/-- `MorganaCommandPoller.should_stop`. -/
def shouldStop (p : Poller) : Bool :=
  p.state = ExecutionState.stopped

/-- Extraction of the command a parsed record carries, if any: the
composition of `.get("command")`, the falsiness check, and
`CommandType(...)`.  `none` means `_process_command` performs no state
update for this record. -/
def extractCommand : PyJson → Option CommandType
  | PyJson.dict fields =>
    match fields.lookup "command" with
    | none => none
    | some command =>
      if command = "" then none else parseCommandType command
  | PyJson.nonDictTruthy => none
  | PyJson.nonDictFalsy => none

/-- One step of the environment while the worker sleeps between polls: the
controller may overwrite the command slot (`some s`) or leave it alone
(`none`). -/
def applyEnvWrite (w : Option SlotContent) (p : Poller) : Poller :=
  match w with
  | some s => { p with slot := s }
  | none => p

/-- `MorganaCommandPoller.wait_while_paused`, driven by a finite trace `env`
of controller writes (one lands during each sleep).  The source loop is
`while should_pause(): if should_stop(): return False;
if not poll_once(): return False; sleep(...)` followed by
`return not should_stop()`.
Result `some (Except.ok b, p)` is the source's return value `b`;
`some (Except.error e, p)` is an escaping exception; `none` means the call
never returns: the trace of writes is exhausted and the poller is still
paused (once no further write arrives, a poll can no longer leave the
paused state, so the loop spins forever). -/
def waitWhilePaused : List (Option SlotContent) → Poller →
    Option (Except PyError Bool × Poller)
  | [], p =>
    if shouldPause p = false then some (Except.ok (!shouldStop p), p)
    else if shouldStop p then some (Except.ok false, p)
    else
      match pollOnce p with
      | (Except.error e, p1) => some (Except.error e, p1)
      | (Except.ok b, p1) =>
        if b = false then some (Except.ok false, p1)
        else if shouldPause p1 then none
        else some (Except.ok (!shouldStop p1), p1)
  | w :: rest, p =>
    if shouldPause p = false then some (Except.ok (!shouldStop p), p)
    else if shouldStop p then some (Except.ok false, p)
    else
      match pollOnce p with
      | (Except.error e, p1) => some (Except.error e, p1)
      | (Except.ok b, p1) =>
        if b = false then some (Except.ok false, p1)
        else waitWhilePaused rest (applyEnvWrite w p1)

/-- `integration_check_point`: poll once (propagating a stop immediately);
if the state is now paused, log `execution_paused` and block in
`wait_while_paused`, logging `execution_resumed` on a truthy result;
otherwise continue.  `none` again means the call is still blocked. -/
def integrationCheckPoint (env : List (Option SlotContent)) (p : Poller) :
    Option (Except PyError Bool × Poller) :=
  match pollOnce p with
  | (Except.error e, p1) => some (Except.error e, p1)
  | (Except.ok b, p1) =>
    if b = false then some (Except.ok false, p1)
    else if shouldPause p1 then
      let p2 := { p1 with log := p1.log ++ ["execution_paused"] }
      match waitWhilePaused env p2 with
      | none => none
      | some (Except.error e, p3) => some (Except.error e, p3)
      | some (Except.ok result, p3) =>
        if result then
          some (Except.ok true, { p3 with log := p3.log ++ ["execution_resumed"] })
        else
          some (Except.ok false, p3)
    else some (Except.ok true, p1)

/-! ### Event logger (`scripts/morgana_events.py`)

Python text is modelled as `List Char` so that the slice `s[:n]` is
`List.take n s`.  `_write_event` only adds timestamp / session / pid
metadata and appends the record to the jsonl file; we model the record an
event method hands to it. -/

/-- One record of `MorganaEventLogger`, keeping the fields the truncation
logic touches.  `text` are the long text payload fields (name, value). -/
structure EventRecord where
  event_type : String
  task_id : String
  text : List (String × List Char)
deriving DecidableEq, Repr

/-- `MorganaEventLogger.task_started`: the prompt is stored as
`prompt[:500] + "..."` when longer than 500 characters. -/
def task_started (taskId : String) (prompt : List Char) : EventRecord :=
  { event_type := "task_started",
    task_id := taskId,
    text := [("prompt",
      if prompt.length > 500 then prompt.take 500 ++ ['.', '.', '.'] else prompt)] }

/-- `MorganaEventLogger.task_completed`: the output is stored as
`output[:1000] + "..."` when longer than 1000 characters. -/
def task_completed (taskId : String) (output : List Char) : EventRecord :=
  { event_type := "task_completed",
    task_id := taskId,
    text := [("output",
      if output.length > 1000 then output.take 1000 ++ ['.', '.', '.'] else output)] }

/-- `MorganaEventLogger.task_failed`: the error message is stored verbatim
(`"error": error`, no slice). -/
def task_failed (taskId : String) (error : List Char) : EventRecord :=
  { event_type := "task_failed",
    task_id := taskId,
    text := [("error", error)] }

/-! ### Sub-agent orchestrator
(`morgana-protocol/archive/ipc-removal/scripts/morgana_subagent_bridge.py`)

The orchestrator's filesystem inbox (pause / resume / user-input files) and
the `Task` tool are external inputs, collected in an `Env` record.  The
`self.tasks` dict holds shared mutable task objects; we model it as an
association list and write every object mutation back through its id. -/

/-- `AgentState` enum of `morgana_subagent_bridge.py`. -/
inductive AgentState where
  | pending
  | running
  | waiting
  | paused
  | completed
  | failed
deriving DecidableEq, Repr

/-- The result dictionaries the orchestrator produces:
`agent success output` is `execute_agent`'s `{"success": ..., "output": ...}`;
`director ...` is `execute_director`'s aggregate with its `sub_agents` list
and per-stage `results` keyed `planning` / `implementation` / `testing`;
`failure msg` is the `{"error": str(e)}` stored on an exception. -/
inductive ResultVal where
  | agent (success : Bool) (output : String)
  | director (output : String) (subAgents : List String)
      (planning implementation testing : ResultVal)
  | failure (msg : String)
deriving DecidableEq, Repr

/-- `result.get("output", "")` on a result dictionary. -/
def ResultVal.getOutput : ResultVal → String
  | ResultVal.agent _ output => output
  | ResultVal.director output _ _ _ _ => output
  | ResultVal.failure _ => ""

/-- The `SubAgentTask` dataclass (the unused open `metadata` bag is
dropped). -/
structure SubAgentTask where
  id : String
  parent_id : Option String
  agent_type : String
  prompt : String
  state : AgentState
  result : Option ResultVal
  children : List String
deriving DecidableEq, Repr

/-- `SubAgentOrchestrator` state: the `tasks` dict (insertion-ordered
association list), the execution stack, the events published to the outbox
(by `type`), and the uuid supply (`nextId` models the stream of fresh
`uuid4()[:8]` values). -/
structure Orch where
  tasks : List (String × SubAgentTask)
  execution_stack : List String
  events : List String
  nextId : Nat
deriving DecidableEq, Repr

/-- A fresh orchestrator (empty dict, empty stack). -/
def initOrch : Orch :=
  { tasks := [], execution_stack := [], events := [], nextId := 0 }

/-- The `n`-th fresh task id (stands in for `uuid.uuid4()[:8]`: an opaque
string, unique per draw; uniqueness of uuids becomes the freshness
hypotheses of the theorems below). -/
def genId (n : Nat) : String :=
  String.mk (List.replicate (n + 1) 'u')

/-- Distinct draws of the uuid supply give distinct ids. -/
theorem genId_injective : Function.Injective genId := by
  intro m n h
  have hdata := congrArg String.data h
  simp only [genId] at hdata
  have hlen := congrArg List.length hdata
  simpa using hlen

/-- `dict[key] = value` on an association list: replace in place, else
append. -/
def setTask : List (String × SubAgentTask) → String → SubAgentTask →
    List (String × SubAgentTask)
  | [], taskId, t => [(taskId, t)]
  | (k, v) :: rest, taskId, t =>
    if k = taskId then (k, t) :: rest else (k, v) :: setTask rest taskId t

/-- Write a mutated task object back into the dict under its own id
(Python mutates the shared object in place). -/
def writeTask (o : Orch) (t : SubAgentTask) : Orch :=
  { o with tasks := setTask o.tasks t.id t }

/-- `SubAgentOrchestrator.publish_event`, reduced to the event's `type`
(the payload and outbox file name carry no further control flow). -/
def publishEvent (o : Orch) (eventType : String) : Orch :=
  { o with events := o.events ++ [eventType] }

/-- `SubAgentOrchestrator.create_sub_agent`: allocate an id, insert the
`PENDING` task, append to the parent's children when the parent is
registered, publish `agent_created`. -/
def createSubAgent (o : Orch) (agentType : String) (prompt : String)
    (parentId : Option String) : SubAgentTask × Orch :=
  let taskId := genId o.nextId
  let task : SubAgentTask :=
    { id := taskId, parent_id := parentId, agent_type := agentType,
      prompt := prompt, state := AgentState.pending, result := none,
      children := [] }
  let o1 := { o with tasks := setTask o.tasks taskId task, nextId := o.nextId + 1 }
  let o2 :=
    match parentId with
    | some p =>
      match o1.tasks.lookup p with
      | some parent => writeTask o1 { parent with children := parent.children ++ [taskId] }
      | none => o1
    | none => o1
  (task, publishEvent o2 "agent_created")

/-- The external inputs of the orchestrator: the `Task` tool (or its
absence, in which case `execute_agent` uses its mock), and the inbox files
`pause_<id>` / `input_<id>`, plus the agent prompt files on disk. -/
structure Env where
  exec : String → String → Except String String
  pauseRequested : String → Bool
  userInput : String → Option String
  agentPrompt : String → Option String
  taskToolAvailable : Bool

/-- `SubAgentOrchestrator.load_agent_prompt`: the prompt file's content if
it exists, else the default prompt. -/
def loadAgentPrompt (env : Env) (agentType : String) : String :=
  match env.agentPrompt agentType with
  | some content => content
  | none => "You are the " ++ agentType ++ " agent."

/-- `SubAgentOrchestrator.execute_agent`.  A pending pause request marks the
task `PAUSED`, publishes `agent_paused`, blocks in `wait_for_resume` (the
resume file's eventual arrival is part of the environment; the wait is
modelled as returning) and marks the task `RUNNING` again.  Pending user
input is appended to the prompt.  With the `Task` tool available the
external executor runs (its exception escaping); otherwise the mock result
is returned.  The task's `state` is never set to `COMPLETED` here. -/
def executeAgent (env : Env) (o : Orch) (taskId : String) :
    Except String ResultVal × Orch :=
  match o.tasks.lookup taskId with
  | none => (Except.error "KeyError: task not registered", o)
  | some t0 =>
    let step1 :=
      if env.pauseRequested taskId then
        let oA := publishEvent (writeTask o { t0 with state := AgentState.paused })
          "agent_paused"
        let t := { t0 with state := AgentState.running }
        (t, writeTask oA t)
      else (t0, o)
    let step2 :=
      match env.userInput taskId with
      | some s =>
        let t := { step1.1 with prompt := step1.1.prompt ++ "\n\nUser input: " ++ s }
        (t, writeTask step1.2 t)
      | none => step1
    let t2 := step2.1
    if env.taskToolAvailable then
      match env.exec t2.agent_type
        (loadAgentPrompt env t2.agent_type ++ "\n\nTask: " ++ t2.prompt) with
      | Except.ok output => (Except.ok (ResultVal.agent true output), step2.2)
      | Except.error e => (Except.error e, step2.2)
    else
      (Except.ok (ResultVal.agent true
        ("[Mock] Executed " ++ t2.agent_type ++ ": " ++ t2.prompt.take 100 ++ "...")),
       step2.2)

/-- `SubAgentOrchestrator.execute_director`: spawn and execute the
`sprint-planner`, `code-implementer` and `test-specialist` children in
order, feeding each result's output into the next prompt; the first
escaping exception aborts the pipeline.  On success, the aggregate result.
Note the children are run through `execute_agent` directly, which never
updates their `state`. -/
def executeDirector (env : Env) (o : Orch) (taskId : String) :
    Except String ResultVal × Orch :=
  match o.tasks.lookup taskId with
  | none => (Except.error "KeyError: task not registered", o)
  | some task =>
    let c1 := createSubAgent o "sprint-planner"
      ("Plan the implementation for: " ++ task.prompt) (some taskId)
    match executeAgent env c1.2 c1.1.id with
    | (Except.error e, o2) => (Except.error e, o2)
    | (Except.ok plannerResult, o2) =>
      let c2 := createSubAgent o2 "code-implementer"
        ("Implement based on plan: " ++ plannerResult.getOutput) (some taskId)
      match executeAgent env c2.2 c2.1.id with
      | (Except.error e, o4) => (Except.error e, o4)
      | (Except.ok implResult, o4) =>
        let c3 := createSubAgent o4 "test-specialist"
          ("Create tests for: " ++ implResult.getOutput) (some taskId)
        match executeAgent env c3.2 c3.1.id with
        | (Except.error e, o6) => (Except.error e, o6)
        | (Except.ok testResult, o6) =>
          (Except.ok (ResultVal.director
            "Completed orchestration with 3 sub-agents"
            [c1.1.id, c2.1.id, c3.1.id] plannerResult implResult testResult), o6)

/-- `SubAgentOrchestrator.execute_with_subagents`: mark the task `RUNNING`,
push its id, publish `agent_started`, dispatch to the director pipeline for
agent types `morgana-director` / `orchestrator` and to `execute_agent`
otherwise; on success mark `COMPLETED` and store the result, on an
exception mark `FAILED`, store `{"error": ...}` and re-raise; the
`finally` pops the stack on both paths. -/
def executeWithSubagents (env : Env) (o : Orch) (taskId : String) :
    Except String ResultVal × Orch :=
  match o.tasks.lookup taskId with
  | none => (Except.error "KeyError: task not registered", o)
  | some t0 =>
    let t1 := { t0 with state := AgentState.running }
    let o1 := writeTask o t1
    let o2 := { o1 with execution_stack := o1.execution_stack ++ [taskId] }
    let o3 := publishEvent o2 "agent_started"
    let body :=
      if t1.agent_type = "morgana-director" ∨ t1.agent_type = "orchestrator" then
        executeDirector env o3 taskId
      else
        executeAgent env o3 taskId
    match body with
    | (Except.ok result, o4) =>
      let o5 :=
        match o4.tasks.lookup taskId with
        | some t => writeTask o4 { t with state := AgentState.completed, result := some result }
        | none => o4
      let o6 := publishEvent o5 "agent_completed"
      let o7 := { o6 with execution_stack := o6.execution_stack.dropLast }
      (Except.ok result, o7)
    | (Except.error e, o4) =>
      let o5 :=
        match o4.tasks.lookup taskId with
        | some t => writeTask o4 { t with state := AgentState.failed, result := some (ResultVal.failure e) }
        | none => o4
      let o6 := publishEvent o5 "agent_failed"
      let o7 := { o6 with execution_stack := o6.execution_stack.dropLast }
      (Except.error e, o7)

/-- An environment with no `Task` tool available (so `execute_agent` uses
its mock, which always succeeds), no pause requests, no user input, and no
agent prompt files on disk. -/
def mockEnv : Env :=
  { exec := fun _ _ => Except.error "Task tool unavailable",
    pauseRequested := fun _ => false,
    userInput := fun _ => none,
    agentPrompt := fun _ => none,
    taskToolAvailable := false }

/-- An environment whose `Task` tool succeeds for every agent type except
`code-implementer` (pipeline stage 2), where the executor raises. -/
def failStage2Env : Env :=
  { exec := fun agentType _ =>
      if agentType = "code-implementer" then Except.error "boom"
      else Except.ok ("done by " ++ agentType),
    pauseRequested := fun _ => false,
    userInput := fun _ => none,
    agentPrompt := fun _ => none,
    taskToolAvailable := true }

/-- A task whose id is already on the execution stack, for exercising the
(missing) re-entrancy check. -/
def reentrantTask : SubAgentTask :=
  { id := "a", parent_id := none, agent_type := "echo-agent", prompt := "hi",
    state := AgentState.running, result := none, children := [] }

/-- An orchestrator in which `reentrantTask` is registered and its id is
already on the execution stack. -/
def reentrantOrch : Orch :=
  { tasks := [("a", reentrantTask)], execution_stack := ["a"], events := [],
    nextId := 0 }

/-- The spec's director scenario: a fresh `morgana-director` task
("build X") created in a fresh orchestrator. -/
def directorSetup : SubAgentTask × Orch :=
  createSubAgent initOrch "morgana-director" "build X" none

/-! ## Supporting lemmas -/

/-- `applyCommand` never changes a stopped state. -/
theorem applyCommand_stopped (c : CommandType) :
    applyCommand ExecutionState.stopped c = ExecutionState.stopped := by
  cases c <;> rfl

/-- `STATUS` never changes the state. -/
theorem applyCommand_status (s : ExecutionState) :
    applyCommand s CommandType.status = s := by
  cases s <;> rfl

/-- `_process_command` never touches the command file: a successful run
leaves the slot as it was. -/
theorem processCommand_slot {p : Poller} {d : PyJson} {p' : Poller}
    (h : processCommand p d = Except.ok p') : p'.slot = p.slot := by
  cases d with
  | nonDictTruthy => simp [processCommand] at h
  | nonDictFalsy => simp [processCommand] at h
  | dict fields =>
    simp only [processCommand] at h
    cases hl : fields.lookup "command" with
    | none => simp only [hl] at h; injection h with h; rw [← h]
    | some command =>
      simp only [hl] at h
      by_cases hempty : command = ""
      · simp only [if_pos hempty] at h; injection h with h; rw [← h]
      · simp only [if_neg hempty] at h
        cases hp : parseCommandType command with
        | none => simp only [hp] at h; injection h with h; rw [← h]
        | some cmdType =>
          simp only [hp] at h
          by_cases hstatus : cmdType = CommandType.status
          · simp only [if_pos hstatus] at h; injection h with h; rw [← h]
          · simp only [if_neg hstatus] at h
            split at h <;> (injection h with h; rw [← h])

/-- The boolean `poll_once` returns is exactly "the state it left behind is
not STOPPED". -/
theorem pollOnce_ok_bool {p : Poller} {b : Bool} {p1 : Poller}
    (h : pollOnce p = (Except.ok b, p1)) :
    b = decide (p1.state ≠ ExecutionState.stopped) := by
  simp only [pollOnce] at h
  cases hr : readCommands p with
  | mk data pr =>
    rw [hr] at h
    cases data with
    | none =>
      injection h with h1 h2
      injection h1 with h1
      rw [← h1, ← h2]
    | some commandData =>
      by_cases ht : commandData.truthy
      · simp only [ht, if_pos] at h
        cases hpc : processCommand pr commandData with
        | error e => rw [hpc] at h; simp at h
        | ok p2 =>
          rw [hpc] at h
          injection h with h1 h2
          injection h1 with h1
          rw [← h1, ← h2]
      · simp only [ht] at h
        simp only [Bool.false_eq_true, if_false] at h
        injection h with h1 h2
        injection h1 with h1
        rw [← h1, ← h2]

/-- A poll with no command file present changes nothing and returns
"continue unless stopped". -/
theorem pollOnce_missing {p : Poller} (h : p.slot = SlotContent.missing) :
    pollOnce p = (Except.ok (decide (p.state ≠ ExecutionState.stopped)), p) := by
  simp only [pollOnce, readCommands, h]

/-- A poll over an unparsable slot logs `command_read_error` and otherwise
changes nothing: the slot is left in place and the state untouched. -/
theorem pollOnce_malformed {p : Poller} (hs : p.slot = SlotContent.malformed) :
    pollOnce p = (Except.ok (decide (p.state ≠ ExecutionState.stopped)),
      { p with log := p.log ++ ["command_read_error"] }) := by
  simp only [pollOnce, readCommands, hs]

/-- `_process_command` on a parsed JSON object never raises. -/
theorem processCommand_dict_ok (p : Poller) (fields : List (String × String)) :
    ∃ p2, processCommand p (PyJson.dict fields) = Except.ok p2 := by
  simp only [processCommand]
  split
  · exact ⟨_, rfl⟩
  · split
    · exact ⟨_, rfl⟩
    · split
      · exact ⟨_, rfl⟩
      · split
        · exact ⟨_, rfl⟩
        · split <;> exact ⟨_, rfl⟩

/-- Evaluation of `poll_once` on a freshly written command slot: the
command is applied to the state (once) and the slot file is removed. -/
theorem pollOnce_after_write (p : Poller) (cmd ts : String) (ct : CommandType)
    (hc : parseCommandType cmd = some ct) :
    ∃ lg, pollOnce (writeCommand cmd ts p) =
      (Except.ok (decide (applyCommand p.state ct ≠ ExecutionState.stopped)),
       { state := applyCommand p.state ct, slot := SlotContent.missing, log := lg }) := by
  have hne : cmd ≠ "" := by
    intro h
    rw [h] at hc
    simp [parseCommandType] at hc
  simp only [pollOnce, writeCommand, readCommands, PyJson.truthy, processCommand,
    clearCommands, List.lookup, List.isEmpty, Bool.not_false, if_true,
    beq_self_eq_true, if_neg hne, hc]
  by_cases hstatus : ct = CommandType.status
  · rw [if_pos hstatus, hstatus, applyCommand_status]
    exact ⟨_, rfl⟩
  · rw [if_neg hstatus]
    by_cases hchange : p.state ≠ applyCommand p.state ct
    · rw [if_pos hchange]
      exact ⟨_, rfl⟩
    · rw [if_neg hchange]
      exact ⟨_, rfl⟩

/-- When `wait_while_paused` returns `b`, then `b = true` means the loop
exited on a clean resume (state RUNNING) and `b = false` means a stop was
received (state STOPPED). -/
theorem waitWhilePaused_ok :
    ∀ (env : List (Option SlotContent)) (p : Poller) (b : Bool) (p' : Poller),
      waitWhilePaused env p = some (Except.ok b, p') →
      (b = true ∧ p'.state = ExecutionState.running) ∨
      (b = false ∧ p'.state = ExecutionState.stopped) := by
  intro env
  induction env with
  | nil =>
    intro p b p' h
    simp only [waitWhilePaused] at h
    split at h
    · next hpause =>
      simp only [Option.some.injEq, Prod.mk.injEq, Except.ok.injEq] at h
      obtain ⟨hb, hp'⟩ := h
      subst hp'
      cases hstate : p.state with
      | running => exact Or.inl ⟨by rw [← hb]; simp [shouldStop, hstate], rfl⟩
      | paused => simp [shouldPause, hstate] at hpause
      | stopped => exact Or.inr ⟨by rw [← hb]; simp [shouldStop, hstate], rfl⟩
    · split at h
      · next hstop =>
        simp only [Option.some.injEq, Prod.mk.injEq, Except.ok.injEq] at h
        obtain ⟨hb, hp'⟩ := h
        subst hp'
        simp only [shouldStop, decide_eq_true_eq] at hstop
        exact Or.inr ⟨hb.symm, hstop⟩
      · split at h
        · simp at h
        · next bb p1 heq =>
          have hbb := pollOnce_ok_bool heq
          split at h
          · next hfalse =>
            simp only [Option.some.injEq, Prod.mk.injEq, Except.ok.injEq] at h
            obtain ⟨hb, hp'⟩ := h
            subst hp'
            rw [hfalse] at hbb
            have hstopped : p1.state = ExecutionState.stopped :=
              not_not.mp (of_decide_eq_false hbb.symm)
            exact Or.inr ⟨hb.symm, hstopped⟩
          · next hnf =>
            have hbtrue : bb = true := by
              cases bb with
              | false => exact absurd rfl hnf
              | true => rfl
            rw [hbtrue] at hbb
            have hnotstop : p1.state ≠ ExecutionState.stopped :=
              of_decide_eq_true hbb.symm
            split at h
            · simp at h
            · next hpause1 =>
              simp only [Option.some.injEq, Prod.mk.injEq, Except.ok.injEq] at h
              obtain ⟨hb, hp'⟩ := h
              subst hp'
              cases hstate : p1.state with
              | running => exact Or.inl ⟨by rw [← hb]; simp [shouldStop, hstate], rfl⟩
              | paused => simp [shouldPause, hstate] at hpause1
              | stopped => exact absurd hstate hnotstop
  | cons w rest ih =>
    intro p b p' h
    simp only [waitWhilePaused] at h
    split at h
    · next hpause =>
      simp only [Option.some.injEq, Prod.mk.injEq, Except.ok.injEq] at h
      obtain ⟨hb, hp'⟩ := h
      subst hp'
      cases hstate : p.state with
      | running => exact Or.inl ⟨by rw [← hb]; simp [shouldStop, hstate], rfl⟩
      | paused => simp [shouldPause, hstate] at hpause
      | stopped => exact Or.inr ⟨by rw [← hb]; simp [shouldStop, hstate], rfl⟩
    · split at h
      · next hstop =>
        simp only [Option.some.injEq, Prod.mk.injEq, Except.ok.injEq] at h
        obtain ⟨hb, hp'⟩ := h
        subst hp'
        simp only [shouldStop, decide_eq_true_eq] at hstop
        exact Or.inr ⟨hb.symm, hstop⟩
      · split at h
        · simp at h
        · next bb p1 heq =>
          have hbb := pollOnce_ok_bool heq
          split at h
          · next hfalse =>
            simp only [Option.some.injEq, Prod.mk.injEq, Except.ok.injEq] at h
            obtain ⟨hb, hp'⟩ := h
            subst hp'
            rw [hfalse] at hbb
            have hstopped : p1.state = ExecutionState.stopped :=
              not_not.mp (of_decide_eq_false hbb.symm)
            exact Or.inr ⟨hb.symm, hstopped⟩
          · exact ih _ _ _ h

/-- Lookup after a dict store: the stored key returns the new task, any
other key is unaffected. -/
theorem lookup_setTask (ts : List (String × SubAgentTask)) (k : String)
    (t : SubAgentTask) (k' : String) :
    (setTask ts k t).lookup k' = if k' = k then some t else ts.lookup k' := by
  induction ts with
  | nil =>
    by_cases h' : k' = k
    · subst h'
      simp [setTask, List.lookup]
    · simp [setTask, List.lookup, beq_eq_false_iff_ne.mpr h', h']
  | cons hd tl ih =>
    cases hd with
    | mk k0 v =>
      by_cases h0 : k0 = k
      · subst h0
        have hset : setTask ((k0, v) :: tl) k0 t = (k0, t) :: tl := by
          simp [setTask]
        rw [hset]
        by_cases h' : k' = k0
        · subst h'
          simp [List.lookup]
        · simp [List.lookup, beq_eq_false_iff_ne.mpr h', h']
      · have hset : setTask ((k0, v) :: tl) k t = (k0, v) :: setTask tl k t := by
          simp [setTask, h0]
        rw [hset]
        by_cases h' : k' = k0
        · subst h'
          simp [List.lookup, h0]
        · simp [List.lookup, beq_eq_false_iff_ne.mpr h', ih]

/-- Storing a task whose id field matches the looked-up entry's id keeps
the key resolvable and the id field stable. -/
theorem lookup_setTask_id (ts : List (String × SubAgentTask)) (t : SubAgentTask)
    (k : String) (t0 : SubAgentTask) (hl : ts.lookup k = some t0)
    (hid : t.id = t0.id) :
    ∃ t2, (setTask ts t.id t).lookup k = some t2 ∧ t2.id = t0.id := by
  by_cases hk : k = t.id
  · exact ⟨t, by rw [lookup_setTask, if_pos hk], hid⟩
  · exact ⟨t0, by rw [lookup_setTask, if_neg hk]; exact hl, rfl⟩

/-- With the `Task` tool unavailable, `execute_agent` always succeeds with
the mock result, leaves the stack alone, and keeps the task resolvable
under its key with an unchanged id field. -/
theorem executeAgent_mock (env : Env) (o : Orch) (taskId : String)
    (t0 : SubAgentTask) (hl : o.tasks.lookup taskId = some t0)
    (hmock : env.taskToolAvailable = false) :
    ∃ (rv : ResultVal) (o2 : Orch),
      executeAgent env o taskId = (Except.ok rv, o2) ∧
      o2.execution_stack = o.execution_stack ∧
      ∃ t2, o2.tasks.lookup taskId = some t2 ∧ t2.id = t0.id := by
  simp only [executeAgent, hl, hmock, Bool.false_eq_true, if_false]
  cases hpr : env.pauseRequested taskId <;>
    cases hui : env.userInput taskId <;>
    simp only [Bool.false_eq_true, if_false, eq_self_iff_true, if_true,
      writeTask, publishEvent]
  · exact ⟨_, _, rfl, rfl, t0, hl, rfl⟩
  · next s =>
    obtain ⟨t2, h2, hid2⟩ := lookup_setTask_id o.tasks
      { t0 with prompt := t0.prompt ++ "\n\nUser input: " ++ s } taskId t0 hl rfl
    exact ⟨_, _, rfl, rfl, t2, h2, hid2⟩
  · obtain ⟨ta, ha, hida⟩ := lookup_setTask_id o.tasks
      { t0 with state := AgentState.paused } taskId t0 hl rfl
    obtain ⟨tb, hb, hidb⟩ := lookup_setTask_id
      (setTask o.tasks ({ t0 with state := AgentState.paused }).id
        { t0 with state := AgentState.paused })
      { t0 with state := AgentState.running } taskId ta ha (by rw [hida])
    exact ⟨_, _, rfl, rfl, tb, hb, by rw [hidb, hida]⟩
  · next s =>
    obtain ⟨ta, ha, hida⟩ := lookup_setTask_id o.tasks
      { t0 with state := AgentState.paused } taskId t0 hl rfl
    obtain ⟨tb, hb, hidb⟩ := lookup_setTask_id
      (setTask o.tasks ({ t0 with state := AgentState.paused }).id
        { t0 with state := AgentState.paused })
      { t0 with state := AgentState.running } taskId ta ha (by rw [hida])
    obtain ⟨tc, hc, hidc⟩ := lookup_setTask_id _
      { ({ t0 with state := AgentState.running } : SubAgentTask) with
          prompt := ({ t0 with state := AgentState.running } : SubAgentTask).prompt
            ++ "\n\nUser input: " ++ s }
      taskId tb hb (by rw [hidb, hida])
    exact ⟨_, _, rfl, rfl, tc, hc, by rw [hidc, hidb, hida]⟩

/-- With no pause request and no user input pending, `execute_agent` is a
pure call of the external executor (or its mock): the orchestrator state is
untouched. -/
theorem executeAgent_quiet (env : Env) (o : Orch) (taskId : String)
    (t : SubAgentTask) (hl : o.tasks.lookup taskId = some t)
    (hpr : env.pauseRequested taskId = false)
    (hui : env.userInput taskId = none) :
    executeAgent env o taskId =
      (if env.taskToolAvailable then
        match env.exec t.agent_type
          (loadAgentPrompt env t.agent_type ++ "\n\nTask: " ++ t.prompt) with
        | Except.ok output => (Except.ok (ResultVal.agent true output), o)
        | Except.error e => (Except.error e, o)
      else
        (Except.ok (ResultVal.agent true
          ("[Mock] Executed " ++ t.agent_type ++ ": " ++ t.prompt.take 100 ++ "...")),
         o)) := by
  simp only [executeAgent, hl, hpr, hui, Bool.false_eq_true, if_false]

/-- Full evaluation of `create_sub_agent` under a registered parent: the
child is inserted under a fresh id and appended to the parent's children
list. -/
theorem createSubAgent_run (o : Orch) (agentType prompt : String) (pid : String)
    (parent : SubAgentTask) (hp : o.tasks.lookup pid = some parent)
    (hpid : parent.id = pid) (hne : pid ≠ genId o.nextId) :
    createSubAgent o agentType prompt (some pid) =
      ({ id := genId o.nextId, parent_id := some pid, agent_type := agentType,
         prompt := prompt, state := AgentState.pending, result := none,
         children := [] },
       { tasks := setTask
           (setTask o.tasks (genId o.nextId)
             { id := genId o.nextId, parent_id := some pid, agent_type := agentType,
               prompt := prompt, state := AgentState.pending, result := none,
               children := [] })
           pid { parent with children := parent.children ++ [genId o.nextId] },
         execution_stack := o.execution_stack,
         events := o.events ++ ["agent_created"],
         nextId := o.nextId + 1 }) := by
  simp only [createSubAgent, writeTask, publishEvent]
  rw [lookup_setTask, if_neg hne, hp]
  simp only [hpid]

/-- One pipeline stage of `execute_director`: create a child under the
director and execute it with `execute_agent`.  Under a quiet environment
with the `Task` tool available, the stage returns the executor's verdict on
the child's prompt and otherwise only registers the child (PENDING) and
appends it to the director's children. -/
theorem director_stage_eval (env : Env) (o : Orch) (did : String)
    (parent : SubAgentTask) (agentType prompt : String)
    (hp : o.tasks.lookup did = some parent) (hpid : parent.id = did)
    (hne : did ≠ genId o.nextId)
    (hpr : env.pauseRequested (genId o.nextId) = false)
    (hui : env.userInput (genId o.nextId) = none)
    (htool : env.taskToolAvailable = true) :
    executeAgent env (createSubAgent o agentType prompt (some did)).2
        (createSubAgent o agentType prompt (some did)).1.id =
      ((match env.exec agentType
            (loadAgentPrompt env agentType ++ "\n\nTask: " ++ prompt) with
        | Except.ok output => Except.ok (ResultVal.agent true output)
        | Except.error e => Except.error e),
       { tasks := setTask
           (setTask o.tasks (genId o.nextId)
             { id := genId o.nextId, parent_id := some did, agent_type := agentType,
               prompt := prompt, state := AgentState.pending, result := none,
               children := [] })
           did { parent with children := parent.children ++ [genId o.nextId] },
         execution_stack := o.execution_stack,
         events := o.events ++ ["agent_created"],
         nextId := o.nextId + 1 }) := by
  rw [createSubAgent_run o agentType prompt did parent hp hpid hne]
  have hlc : (setTask
      (setTask o.tasks (genId o.nextId)
        { id := genId o.nextId, parent_id := some did, agent_type := agentType,
          prompt := prompt, state := AgentState.pending, result := none,
          children := [] })
      did { parent with children := parent.children ++ [genId o.nextId] }).lookup
        (genId o.nextId) =
      some { id := genId o.nextId, parent_id := some did, agent_type := agentType,
             prompt := prompt, state := AgentState.pending, result := none,
             children := [] } := by
    rw [lookup_setTask, if_neg (fun h => hne h.symm), lookup_setTask, if_pos rfl]
  rw [executeAgent_quiet env _ (genId o.nextId) _ hlc hpr hui, if_pos htool]
  cases env.exec agentType (loadAgentPrompt env agentType ++ "\n\nTask: " ++ prompt) with
  | ok output => rfl
  | error e => rfl

/-- One pipeline stage of `execute_director` with the `Task` tool
unavailable: the mock result is returned and only the child's creation is
recorded. -/
theorem director_stage_eval_mock (env : Env) (o : Orch) (did : String)
    (parent : SubAgentTask) (agentType prompt : String)
    (hp : o.tasks.lookup did = some parent) (hpid : parent.id = did)
    (hne : did ≠ genId o.nextId)
    (hpr : env.pauseRequested (genId o.nextId) = false)
    (hui : env.userInput (genId o.nextId) = none)
    (hmock : env.taskToolAvailable = false) :
    executeAgent env (createSubAgent o agentType prompt (some did)).2
        (createSubAgent o agentType prompt (some did)).1.id =
      (Except.ok (ResultVal.agent true
        ("[Mock] Executed " ++ agentType ++ ": " ++ prompt.take 100 ++ "...")),
       { tasks := setTask
           (setTask o.tasks (genId o.nextId)
             { id := genId o.nextId, parent_id := some did, agent_type := agentType,
               prompt := prompt, state := AgentState.pending, result := none,
               children := [] })
           did { parent with children := parent.children ++ [genId o.nextId] },
         execution_stack := o.execution_stack,
         events := o.events ++ ["agent_created"],
         nextId := o.nextId + 1 }) := by
  rw [createSubAgent_run o agentType prompt did parent hp hpid hne]
  have hlc : (setTask
      (setTask o.tasks (genId o.nextId)
        { id := genId o.nextId, parent_id := some did, agent_type := agentType,
          prompt := prompt, state := AgentState.pending, result := none,
          children := [] })
      did { parent with children := parent.children ++ [genId o.nextId] }).lookup
        (genId o.nextId) =
      some { id := genId o.nextId, parent_id := some did, agent_type := agentType,
             prompt := prompt, state := AgentState.pending, result := none,
             children := [] } := by
    rw [lookup_setTask, if_neg (fun h => hne h.symm), lookup_setTask, if_pos rfl]
  rw [executeAgent_quiet env _ (genId o.nextId) _ hlc hpr hui]
  rw [hmock]
  simp only [Bool.false_eq_true, if_false]

/-- `execute_director` when the executor fails at stage 1 (the planner):
the exception propagates after exactly one child (PENDING) was created. -/
theorem executeDirector_fail1 (env : Env) (o : Orch) (did : String)
    (t1 : SubAgentTask) (e : String)
    (hl : o.tasks.lookup did = some t1) (hid : t1.id = did)
    (hdf : ∀ n, o.nextId ≤ n → did ≠ genId n)
    (hpr : ∀ i, env.pauseRequested i = false)
    (hui : ∀ i, env.userInput i = none)
    (htool : env.taskToolAvailable = true)
    (hexec1 : ∀ pr, env.exec "sprint-planner" pr = Except.error e) :
    executeDirector env o did =
      (Except.error e,
       { tasks := setTask
           (setTask o.tasks (genId o.nextId)
             { id := genId o.nextId, parent_id := some did,
               agent_type := "sprint-planner",
               prompt := "Plan the implementation for: " ++ t1.prompt,
               state := AgentState.pending, result := none, children := [] })
           did { t1 with children := t1.children ++ [genId o.nextId] },
         execution_stack := o.execution_stack,
         events := o.events ++ ["agent_created"],
         nextId := o.nextId + 1 }) := by
  simp only [executeDirector, hl]
  rw [director_stage_eval env o did t1 "sprint-planner" _ hl hid
      (hdf _ (le_refl _)) (hpr _) (hui _) htool, hexec1]

/-- `execute_director` when the executor succeeds at stage 1 and fails at
stage 2 (the implementer): the exception propagates after exactly two
children (both PENDING) were created; the tester is never created. -/
theorem executeDirector_fail2 (env : Env) (o : Orch) (did : String)
    (t1 : SubAgentTask) (e : String)
    (hl : o.tasks.lookup did = some t1) (hid : t1.id = did)
    (hdf : ∀ n, o.nextId ≤ n → did ≠ genId n)
    (hpr : ∀ i, env.pauseRequested i = false)
    (hui : ∀ i, env.userInput i = none)
    (htool : env.taskToolAvailable = true)
    (hexec1 : ∀ pr, ∃ out, env.exec "sprint-planner" pr = Except.ok out)
    (hexec2 : ∀ pr, env.exec "code-implementer" pr = Except.error e) :
    ∃ out1, executeDirector env o did =
      (Except.error e,
       { tasks := setTask
           (setTask
             (setTask
               (setTask o.tasks (genId o.nextId)
                 { id := genId o.nextId, parent_id := some did,
                   agent_type := "sprint-planner",
                   prompt := "Plan the implementation for: " ++ t1.prompt,
                   state := AgentState.pending, result := none, children := [] })
               did { t1 with children := t1.children ++ [genId o.nextId] })
             (genId (o.nextId + 1))
             { id := genId (o.nextId + 1), parent_id := some did,
               agent_type := "code-implementer",
               prompt := "Implement based on plan: " ++ out1,
               state := AgentState.pending, result := none, children := [] })
           did { t1 with children :=
                   t1.children ++ [genId o.nextId] ++ [genId (o.nextId + 1)] },
         execution_stack := o.execution_stack,
         events := o.events ++ ["agent_created"] ++ ["agent_created"],
         nextId := o.nextId + 1 + 1 }) := by
  obtain ⟨out1, h1⟩ := hexec1 (loadAgentPrompt env "sprint-planner" ++ "\n\nTask: "
    ++ ("Plan the implementation for: " ++ t1.prompt))
  refine ⟨out1, ?_⟩
  simp only [executeDirector, hl]
  rw [director_stage_eval env o did t1 "sprint-planner" _ hl hid
      (hdf _ (le_refl _)) (hpr _) (hui _) htool, h1]
  dsimp only
  simp only [ResultVal.getOutput]
  have hp2 : (setTask
      (setTask o.tasks (genId o.nextId)
        { id := genId o.nextId, parent_id := some did,
          agent_type := "sprint-planner",
          prompt := "Plan the implementation for: " ++ t1.prompt,
          state := AgentState.pending, result := none, children := [] })
      did { t1 with children := t1.children ++ [genId o.nextId] }).lookup did =
      some { t1 with children := t1.children ++ [genId o.nextId] } := by
    rw [lookup_setTask, if_pos rfl]
  rw [director_stage_eval env
      { tasks := setTask
          (setTask o.tasks (genId o.nextId)
            { id := genId o.nextId, parent_id := some did,
              agent_type := "sprint-planner",
              prompt := "Plan the implementation for: " ++ t1.prompt,
              state := AgentState.pending, result := none, children := [] })
          did { t1 with children := t1.children ++ [genId o.nextId] },
        execution_stack := o.execution_stack,
        events := o.events ++ ["agent_created"],
        nextId := o.nextId + 1 }
      did { t1 with children := t1.children ++ [genId o.nextId] }
      "code-implementer" _ hp2 hid (hdf _ (Nat.le_succ _)) (hpr _) (hui _) htool,
    hexec2]

/-- `execute_director` when the executor succeeds at stages 1 and 2 and
fails at stage 3 (the tester): the exception propagates after exactly three
children (all PENDING) were created. -/
theorem executeDirector_fail3 (env : Env) (o : Orch) (did : String)
    (t1 : SubAgentTask) (e : String)
    (hl : o.tasks.lookup did = some t1) (hid : t1.id = did)
    (hdf : ∀ n, o.nextId ≤ n → did ≠ genId n)
    (hpr : ∀ i, env.pauseRequested i = false)
    (hui : ∀ i, env.userInput i = none)
    (htool : env.taskToolAvailable = true)
    (hexec1 : ∀ pr, ∃ out, env.exec "sprint-planner" pr = Except.ok out)
    (hexec2 : ∀ pr, ∃ out, env.exec "code-implementer" pr = Except.ok out)
    (hexec3 : ∀ pr, env.exec "test-specialist" pr = Except.error e) :
    ∃ out1 out2, executeDirector env o did =
      (Except.error e,
       { tasks := setTask
           (setTask
             (setTask
               (setTask
                 (setTask
                   (setTask o.tasks (genId o.nextId)
                     { id := genId o.nextId, parent_id := some did,
                       agent_type := "sprint-planner",
                       prompt := "Plan the implementation for: " ++ t1.prompt,
                       state := AgentState.pending, result := none, children := [] })
                   did { t1 with children := t1.children ++ [genId o.nextId] })
                 (genId (o.nextId + 1))
                 { id := genId (o.nextId + 1), parent_id := some did,
                   agent_type := "code-implementer",
                   prompt := "Implement based on plan: " ++ out1,
                   state := AgentState.pending, result := none, children := [] })
               did { t1 with children :=
                       t1.children ++ [genId o.nextId] ++ [genId (o.nextId + 1)] })
             (genId (o.nextId + 1 + 1))
             { id := genId (o.nextId + 1 + 1), parent_id := some did,
               agent_type := "test-specialist",
               prompt := "Create tests for: " ++ out2,
               state := AgentState.pending, result := none, children := [] })
           did { t1 with children :=
                   t1.children ++ [genId o.nextId] ++ [genId (o.nextId + 1)]
                     ++ [genId (o.nextId + 1 + 1)] },
         execution_stack := o.execution_stack,
         events := o.events ++ ["agent_created"] ++ ["agent_created"]
           ++ ["agent_created"],
         nextId := o.nextId + 1 + 1 + 1 }) := by
  obtain ⟨out1, h1⟩ := hexec1 (loadAgentPrompt env "sprint-planner" ++ "\n\nTask: "
    ++ ("Plan the implementation for: " ++ t1.prompt))
  obtain ⟨out2, h2⟩ := hexec2 (loadAgentPrompt env "code-implementer" ++ "\n\nTask: "
    ++ ("Implement based on plan: " ++ out1))
  refine ⟨out1, out2, ?_⟩
  simp only [executeDirector, hl]
  rw [director_stage_eval env o did t1 "sprint-planner" _ hl hid
      (hdf _ (le_refl _)) (hpr _) (hui _) htool, h1]
  dsimp only
  try simp only [ResultVal.getOutput]
  have hp2 : (setTask
      (setTask o.tasks (genId o.nextId)
        { id := genId o.nextId, parent_id := some did,
          agent_type := "sprint-planner",
          prompt := "Plan the implementation for: " ++ t1.prompt,
          state := AgentState.pending, result := none, children := [] })
      did { t1 with children := t1.children ++ [genId o.nextId] }).lookup did =
      some { t1 with children := t1.children ++ [genId o.nextId] } := by
    rw [lookup_setTask, if_pos rfl]
  rw [director_stage_eval env
      { tasks := setTask
          (setTask o.tasks (genId o.nextId)
            { id := genId o.nextId, parent_id := some did,
              agent_type := "sprint-planner",
              prompt := "Plan the implementation for: " ++ t1.prompt,
              state := AgentState.pending, result := none, children := [] })
          did { t1 with children := t1.children ++ [genId o.nextId] },
        execution_stack := o.execution_stack,
        events := o.events ++ ["agent_created"],
        nextId := o.nextId + 1 }
      did { t1 with children := t1.children ++ [genId o.nextId] }
      "code-implementer" _ hp2 hid (hdf _ (Nat.le_succ _)) (hpr _) (hui _) htool,
    h2]
  dsimp only
  try simp only [ResultVal.getOutput]
  have hp3 : (setTask
      (setTask
        (setTask
          (setTask o.tasks (genId o.nextId)
            { id := genId o.nextId, parent_id := some did,
              agent_type := "sprint-planner",
              prompt := "Plan the implementation for: " ++ t1.prompt,
              state := AgentState.pending, result := none, children := [] })
          did { t1 with children := t1.children ++ [genId o.nextId] })
        (genId (o.nextId + 1))
        { id := genId (o.nextId + 1), parent_id := some did,
          agent_type := "code-implementer",
          prompt := "Implement based on plan: " ++ out1,
          state := AgentState.pending, result := none, children := [] })
      did { t1 with children :=
              t1.children ++ [genId o.nextId] ++ [genId (o.nextId + 1)] }).lookup
        did =
      some { t1 with children :=
               t1.children ++ [genId o.nextId] ++ [genId (o.nextId + 1)] } := by
    rw [lookup_setTask, if_pos rfl]
  rw [director_stage_eval env
      { tasks := setTask
          (setTask
            (setTask
              (setTask o.tasks (genId o.nextId)
                { id := genId o.nextId, parent_id := some did,
                  agent_type := "sprint-planner",
                  prompt := "Plan the implementation for: " ++ t1.prompt,
                  state := AgentState.pending, result := none, children := [] })
              did { t1 with children := t1.children ++ [genId o.nextId] })
            (genId (o.nextId + 1))
            { id := genId (o.nextId + 1), parent_id := some did,
              agent_type := "code-implementer",
              prompt := "Implement based on plan: " ++ out1,
              state := AgentState.pending, result := none, children := [] })
          did { t1 with children :=
                  t1.children ++ [genId o.nextId] ++ [genId (o.nextId + 1)] },
        execution_stack := o.execution_stack,
        events := o.events ++ ["agent_created"] ++ ["agent_created"],
        nextId := o.nextId + 1 + 1 }
      did { t1 with children :=
              t1.children ++ [genId o.nextId] ++ [genId (o.nextId + 1)] }
      "test-specialist" _ hp3 hid (hdf _ (Nat.le_add_right o.nextId 2)) (hpr _)
      (hui _) htool,
    hexec3]

/-- `execute_director` under the mock executor (no `Task` tool): all three
stages succeed, three PENDING children are created (planner, implementer,
tester) and appended to the director's children in order, and the aggregate
result carries the three child ids and the three per-stage results. -/
theorem executeDirector_mock_success (env : Env) (o : Orch) (did : String)
    (t1 : SubAgentTask)
    (hl : o.tasks.lookup did = some t1) (hid : t1.id = did)
    (hdf : ∀ n, o.nextId ≤ n → did ≠ genId n)
    (hpr : ∀ i, env.pauseRequested i = false)
    (hui : ∀ i, env.userInput i = none)
    (hmock : env.taskToolAvailable = false) :
    ∃ m1 m2 m3 : String,
      executeDirector env o did =
        (Except.ok (ResultVal.director "Completed orchestration with 3 sub-agents"
           [genId o.nextId, genId (o.nextId + 1), genId (o.nextId + 1 + 1)]
           (ResultVal.agent true m1) (ResultVal.agent true m2)
           (ResultVal.agent true m3)),
         { tasks := setTask
             (setTask
               (setTask
                 (setTask
                   (setTask
                     (setTask o.tasks (genId o.nextId)
                       { id := genId o.nextId, parent_id := some did,
                         agent_type := "sprint-planner",
                         prompt := "Plan the implementation for: " ++ t1.prompt,
                         state := AgentState.pending, result := none,
                         children := [] })
                     did { t1 with children := t1.children ++ [genId o.nextId] })
                   (genId (o.nextId + 1))
                   { id := genId (o.nextId + 1), parent_id := some did,
                     agent_type := "code-implementer",
                     prompt := "Implement based on plan: " ++ m1,
                     state := AgentState.pending, result := none, children := [] })
                 did { t1 with children :=
                         t1.children ++ [genId o.nextId] ++ [genId (o.nextId + 1)] })
               (genId (o.nextId + 1 + 1))
               { id := genId (o.nextId + 1 + 1), parent_id := some did,
                 agent_type := "test-specialist",
                 prompt := "Create tests for: " ++ m2,
                 state := AgentState.pending, result := none, children := [] })
             did { t1 with children :=
                     t1.children ++ [genId o.nextId] ++ [genId (o.nextId + 1)]
                       ++ [genId (o.nextId + 1 + 1)] },
           execution_stack := o.execution_stack,
           events := o.events ++ ["agent_created"] ++ ["agent_created"]
             ++ ["agent_created"],
           nextId := o.nextId + 1 + 1 + 1 }) := by
  refine ⟨"[Mock] Executed " ++ "sprint-planner" ++ ": "
      ++ ("Plan the implementation for: " ++ t1.prompt).take 100 ++ "...",
    "[Mock] Executed " ++ "code-implementer" ++ ": "
      ++ ("Implement based on plan: "
          ++ ("[Mock] Executed " ++ "sprint-planner" ++ ": "
              ++ ("Plan the implementation for: " ++ t1.prompt).take 100
              ++ "...")).take 100 ++ "...",
    "[Mock] Executed " ++ "test-specialist" ++ ": "
      ++ ("Create tests for: "
          ++ ("[Mock] Executed " ++ "code-implementer" ++ ": "
              ++ ("Implement based on plan: "
                  ++ ("[Mock] Executed " ++ "sprint-planner" ++ ": "
                      ++ ("Plan the implementation for: " ++ t1.prompt).take 100
                      ++ "...")).take 100 ++ "...")).take 100 ++ "...",
    ?_⟩
  · simp only [executeDirector, hl]
    rw [director_stage_eval_mock env o did t1 "sprint-planner" _ hl hid
        (hdf _ (le_refl _)) (hpr _) (hui _) hmock]
    dsimp only
    try simp only [ResultVal.getOutput]
    have hp2 : (setTask
        (setTask o.tasks (genId o.nextId)
          { id := genId o.nextId, parent_id := some did,
            agent_type := "sprint-planner",
            prompt := "Plan the implementation for: " ++ t1.prompt,
            state := AgentState.pending, result := none, children := [] })
        did { t1 with children := t1.children ++ [genId o.nextId] }).lookup did =
        some { t1 with children := t1.children ++ [genId o.nextId] } := by
      rw [lookup_setTask, if_pos rfl]
    rw [director_stage_eval_mock env
        { tasks := setTask
            (setTask o.tasks (genId o.nextId)
              { id := genId o.nextId, parent_id := some did,
                agent_type := "sprint-planner",
                prompt := "Plan the implementation for: " ++ t1.prompt,
                state := AgentState.pending, result := none, children := [] })
            did { t1 with children := t1.children ++ [genId o.nextId] },
          execution_stack := o.execution_stack,
          events := o.events ++ ["agent_created"],
          nextId := o.nextId + 1 }
        did { t1 with children := t1.children ++ [genId o.nextId] }
        "code-implementer" _ hp2 hid (hdf _ (Nat.le_succ _)) (hpr _) (hui _) hmock]
    dsimp only
    try simp only [ResultVal.getOutput]
    have hp3 : (setTask
        (setTask
          (setTask
            (setTask o.tasks (genId o.nextId)
              { id := genId o.nextId, parent_id := some did,
                agent_type := "sprint-planner",
                prompt := "Plan the implementation for: " ++ t1.prompt,
                state := AgentState.pending, result := none, children := [] })
            did { t1 with children := t1.children ++ [genId o.nextId] })
          (genId (o.nextId + 1))
          { id := genId (o.nextId + 1), parent_id := some did,
            agent_type := "code-implementer",
            prompt := "Implement based on plan: "
              ++ ("[Mock] Executed " ++ "sprint-planner" ++ ": "
                  ++ ("Plan the implementation for: " ++ t1.prompt).take 100
                  ++ "..."),
            state := AgentState.pending, result := none, children := [] })
        did { t1 with children :=
                t1.children ++ [genId o.nextId] ++ [genId (o.nextId + 1)] }).lookup
          did =
        some { t1 with children :=
                 t1.children ++ [genId o.nextId] ++ [genId (o.nextId + 1)] } := by
      rw [lookup_setTask, if_pos rfl]
    rw [director_stage_eval_mock env
        { tasks := setTask
            (setTask
              (setTask
                (setTask o.tasks (genId o.nextId)
                  { id := genId o.nextId, parent_id := some did,
                    agent_type := "sprint-planner",
                    prompt := "Plan the implementation for: " ++ t1.prompt,
                    state := AgentState.pending, result := none, children := [] })
                did { t1 with children := t1.children ++ [genId o.nextId] })
              (genId (o.nextId + 1))
              { id := genId (o.nextId + 1), parent_id := some did,
                agent_type := "code-implementer",
                prompt := "Implement based on plan: "
                  ++ ("[Mock] Executed " ++ "sprint-planner" ++ ": "
                      ++ ("Plan the implementation for: " ++ t1.prompt).take 100
                      ++ "..."),
                state := AgentState.pending, result := none, children := [] })
            did { t1 with children :=
                    t1.children ++ [genId o.nextId] ++ [genId (o.nextId + 1)] },
          execution_stack := o.execution_stack,
          events := o.events ++ ["agent_created"] ++ ["agent_created"],
          nextId := o.nextId + 1 + 1 }
        did { t1 with children :=
                t1.children ++ [genId o.nextId] ++ [genId (o.nextId + 1)] }
        "test-specialist" _ hp3 hid (hdf _ (Nat.le_add_right o.nextId 2)) (hpr _)
        (hui _) hmock]
    dsimp only [createSubAgent]

/-- `execute_with_subagents` on a director task whose pipeline raises:
the task is marked FAILED with the error captured, `agent_failed` is
published, the stack is popped, and the error is re-raised. -/
theorem executeWithSubagents_director_error (env : Env) (o : Orch) (did : String)
    (t : SubAgentTask) (e : String) (oB : Orch) (tB : SubAgentTask)
    (hl : o.tasks.lookup did = some t) (hid : t.id = did)
    (htype : t.agent_type = "morgana-director")
    (hbody : executeDirector env
      { tasks := setTask o.tasks did { t with state := AgentState.running },
        execution_stack := o.execution_stack ++ [did],
        events := o.events ++ ["agent_started"], nextId := o.nextId } did
      = (Except.error e, oB))
    (hlB : oB.tasks.lookup did = some tB) (hidB : tB.id = did) :
    executeWithSubagents env o did =
      (Except.error e,
       { tasks := setTask oB.tasks did
           { tB with state := AgentState.failed, result := some (ResultVal.failure e) },
         execution_stack := oB.execution_stack.dropLast,
         events := oB.events ++ ["agent_failed"],
         nextId := oB.nextId }) := by
  simp only [executeWithSubagents, hl, writeTask, publishEvent]
  rw [if_pos (Or.inl htype)]
  try dsimp only
  rw [hid] at hbody
  rw [hid, hbody]
  try dsimp only
  rw [hlB]
  try dsimp only
  rw [hidB]

/-- `execute_with_subagents` on a director task whose pipeline succeeds:
the task is marked COMPLETED with the aggregate stored, `agent_completed`
is published, the stack is popped, and the result is returned. -/
theorem executeWithSubagents_director_ok (env : Env) (o : Orch) (did : String)
    (t : SubAgentTask) (r : ResultVal) (oB : Orch) (tB : SubAgentTask)
    (hl : o.tasks.lookup did = some t) (hid : t.id = did)
    (htype : t.agent_type = "morgana-director")
    (hbody : executeDirector env
      { tasks := setTask o.tasks did { t with state := AgentState.running },
        execution_stack := o.execution_stack ++ [did],
        events := o.events ++ ["agent_started"], nextId := o.nextId } did
      = (Except.ok r, oB))
    (hlB : oB.tasks.lookup did = some tB) (hidB : tB.id = did) :
    executeWithSubagents env o did =
      (Except.ok r,
       { tasks := setTask oB.tasks did
           { tB with state := AgentState.completed, result := some r },
         execution_stack := oB.execution_stack.dropLast,
         events := oB.events ++ ["agent_completed"],
         nextId := oB.nextId }) := by
  simp only [executeWithSubagents, hl, writeTask, publishEvent]
  rw [if_pos (Or.inl htype)]
  try dsimp only
  rw [hid] at hbody
  rw [hid, hbody]
  try dsimp only
  rw [hlB]
  try dsimp only
  rw [hidB]

/-- `create_sub_agent` does not touch the execution stack. -/
theorem createSubAgent_stack (o : Orch) (agentType prompt : String)
    (parentId : Option String) :
    (createSubAgent o agentType prompt parentId).2.execution_stack =
      o.execution_stack := by
  simp only [createSubAgent, writeTask, publishEvent]
  split <;> first
    | rfl
    | (split <;> rfl)

/-- `execute_agent` does not touch the execution stack. -/
theorem executeAgent_stack (env : Env) (o : Orch) (taskId : String) :
    (executeAgent env o taskId).2.execution_stack = o.execution_stack := by
  simp only [executeAgent, writeTask, publishEvent]
  split
  · rfl
  · cases hpr : env.pauseRequested taskId <;>
      cases hui : env.userInput taskId <;>
      cases htool : env.taskToolAvailable <;>
      simp only [Bool.false_eq_true, if_false, eq_self_iff_true, if_true] <;>
      first
        | rfl
        | (split <;> rfl)

/-- `execute_director` does not touch the execution stack. -/
theorem executeDirector_stack (env : Env) (o : Orch) (taskId : String) :
    (executeDirector env o taskId).2.execution_stack = o.execution_stack := by
  simp only [executeDirector]
  split
  · rfl
  · next task _ =>
    cases h1 : executeAgent env
        (createSubAgent o "sprint-planner"
          ("Plan the implementation for: " ++ task.prompt) (some taskId)).2
        (createSubAgent o "sprint-planner"
          ("Plan the implementation for: " ++ task.prompt) (some taskId)).1.id with
    | mk r1 o2 =>
      have e1 : o2.execution_stack = o.execution_stack := by
        have hx := executeAgent_stack env
          (createSubAgent o "sprint-planner"
            ("Plan the implementation for: " ++ task.prompt) (some taskId)).2
          (createSubAgent o "sprint-planner"
            ("Plan the implementation for: " ++ task.prompt) (some taskId)).1.id
        rw [h1] at hx
        rw [hx, createSubAgent_stack]
      cases r1 with
      | error e => exact e1
      | ok plannerResult =>
        dsimp only
        cases h2 : executeAgent env
            (createSubAgent o2 "code-implementer"
              ("Implement based on plan: " ++ plannerResult.getOutput)
              (some taskId)).2
            (createSubAgent o2 "code-implementer"
              ("Implement based on plan: " ++ plannerResult.getOutput)
              (some taskId)).1.id with
        | mk r2 o4 =>
          have e2 : o4.execution_stack = o.execution_stack := by
            have hx := executeAgent_stack env
              (createSubAgent o2 "code-implementer"
                ("Implement based on plan: " ++ plannerResult.getOutput)
                (some taskId)).2
              (createSubAgent o2 "code-implementer"
                ("Implement based on plan: " ++ plannerResult.getOutput)
                (some taskId)).1.id
            rw [h2] at hx
            rw [hx, createSubAgent_stack]
            exact e1
          cases r2 with
          | error e => exact e2
          | ok implResult =>
            dsimp only
            cases h3 : executeAgent env
                (createSubAgent o4 "test-specialist"
                  ("Create tests for: " ++ implResult.getOutput) (some taskId)).2
                (createSubAgent o4 "test-specialist"
                  ("Create tests for: " ++ implResult.getOutput) (some taskId)).1.id with
            | mk r3 o6 =>
              have e3 : o6.execution_stack = o.execution_stack := by
                have hx := executeAgent_stack env
                  (createSubAgent o4 "test-specialist"
                    ("Create tests for: " ++ implResult.getOutput) (some taskId)).2
                  (createSubAgent o4 "test-specialist"
                    ("Create tests for: " ++ implResult.getOutput) (some taskId)).1.id
                rw [h3] at hx
                rw [hx, createSubAgent_stack]
                exact e2
              cases r3 with
              | error e => exact e3
              | ok testResult =>
                dsimp only
                exact e3

/-- In the fresh director scenario, every id the uuid supply will draw next
is unregistered. -/
theorem directorSetup_fresh : ∀ n, directorSetup.2.nextId ≤ n →
    directorSetup.2.tasks.lookup (genId n) = none := by
  intro n hn
  have hn' : 1 ≤ n := hn
  have hne : genId n ≠ genId 0 := fun h => by
    have := genId_injective h
    omega
  show List.lookup (genId n) [(genId 0, directorSetup.1)] = none
  simp [List.lookup, beq_eq_false_iff_ne.mpr hne]

/-- `execute_with_subagents` restores the execution stack on both exit
paths: the push of the task id is undone by the pop in the `finally`. -/
theorem executeWithSubagents_stack (env : Env) (o : Orch) (taskId : String) :
    (executeWithSubagents env o taskId).2.execution_stack = o.execution_stack := by
  simp only [executeWithSubagents, writeTask, publishEvent]
  split
  · rfl
  · next t0 _ =>
    split
    · next result o4 hbody =>
      have hst : o4.execution_stack = o.execution_stack ++ [taskId] := by
        by_cases hdir : ({ t0 with state := AgentState.running }).agent_type
            = "morgana-director" ∨
            ({ t0 with state := AgentState.running }).agent_type = "orchestrator"
        · rw [if_pos hdir] at hbody
          have hx := congrArg
            (fun r : Except String ResultVal × Orch => r.2.execution_stack) hbody
          simp only [executeDirector_stack] at hx
          exact hx.symm
        · rw [if_neg hdir] at hbody
          have hx := congrArg
            (fun r : Except String ResultVal × Orch => r.2.execution_stack) hbody
          simp only [executeAgent_stack] at hx
          exact hx.symm
      split <;> simp [hst, List.dropLast_concat]
    · next e o4 hbody =>
      have hst : o4.execution_stack = o.execution_stack ++ [taskId] := by
        by_cases hdir : ({ t0 with state := AgentState.running }).agent_type
            = "morgana-director" ∨
            ({ t0 with state := AgentState.running }).agent_type = "orchestrator"
        · rw [if_pos hdir] at hbody
          have hx := congrArg
            (fun r : Except String ResultVal × Orch => r.2.execution_stack) hbody
          simp only [executeDirector_stack] at hx
          exact hx.symm
        · rw [if_neg hdir] at hbody
          have hx := congrArg
            (fun r : Except String ResultVal × Orch => r.2.execution_stack) hbody
          simp only [executeAgent_stack] at hx
          exact hx.symm
      split <;> simp [hst, List.dropLast_concat]

/-! ## Claims -/

/-- C1: the process-global `ExecutionState` follows the transition table
exactly, for every processed command record and every command sequence:
a successful `_process_command` updates the state by the command the record
carries (or leaves it alone when the record carries none); PAUSE changes
state only from RUNNING; RESUME changes state only from PAUSED; STOP moves
to STOPPED from any state; STOPPED is absorbing over arbitrary command
sequences; STATUS never changes the state. -/
theorem execution_state_transition_table :
    (∀ (p : Poller) (d : PyJson) (p' : Poller), processCommand p d = Except.ok p' →
      p'.state = match extractCommand d with
                 | some c => applyCommand p.state c
                 | none => p.state) ∧
    (∀ s, applyCommand s CommandType.pause =
      if s = ExecutionState.running then ExecutionState.paused else s) ∧
    (∀ s, applyCommand s CommandType.resume =
      if s = ExecutionState.paused then ExecutionState.running else s) ∧
    (∀ s, applyCommand s CommandType.stop = ExecutionState.stopped) ∧
    (∀ cmds, runCommands ExecutionState.stopped cmds = ExecutionState.stopped) ∧
    (∀ s, applyCommand s CommandType.status = s) := by
  refine ⟨?_, ?_, ?_, ?_, ?_, applyCommand_status⟩
  · intro p d p' h
    cases d with
    | nonDictTruthy => simp [processCommand] at h
    | nonDictFalsy => simp [processCommand] at h
    | dict fields =>
      simp only [processCommand, extractCommand] at h ⊢
      cases hl : fields.lookup "command" with
      | none =>
        simp only [hl] at h ⊢
        injection h with h
        rw [← h]
      | some command =>
        simp only [hl] at h ⊢
        by_cases hempty : command = ""
        · simp only [if_pos hempty] at h ⊢
          injection h with h
          rw [← h]
        · simp only [if_neg hempty] at h ⊢
          cases hp : parseCommandType command with
          | none =>
            simp only [hp] at h ⊢
            injection h with h
            rw [← h]
          | some cmdType =>
            simp only [hp] at h ⊢
            by_cases hstatus : cmdType = CommandType.status
            · simp only [if_pos hstatus] at h
              injection h with h
              rw [← h, hstatus, applyCommand_status]
            · simp only [if_neg hstatus] at h
              split at h <;> (injection h with h; rw [← h])
  · intro s; cases s <;> rfl
  · intro s; cases s <;> rfl
  · intro s; cases s <;> rfl
  · intro cmds
    induction cmds with
    | nil => rfl
    | cons c cs ih =>
      simpa [runCommands, List.foldl, applyCommand_stopped] using ih

/-- Witness for C1: processing `{"command": "pause"}` from the initial
(running) poller lands in exactly the table's target state. -/
theorem execution_state_transition_table_witness :
    (Poller.state
      { state := ExecutionState.paused, slot := SlotContent.missing,
        log := ["state_changed"] }) =
      (match extractCommand (PyJson.dict [("command", "pause")]) with
       | some c => applyCommand initPoller.state c
       | none => initPoller.state) :=
  execution_state_transition_table.1 initPoller (PyJson.dict [("command", "pause")])
    _ rfl

/-- C2: the cooperative checkpoint contract of `integration_check_point()`:
(1) it polls once and, when that poll implies stop, returns `false`
immediately with exactly the post-poll state (no further polling);
(2) whenever it returns, `true` means a clean resume (state RUNNING, not
stopped) and `false` means a stop was received (state STOPPED);
(3) when the state after the poll is paused and no resume or stop ever
arrives, the call blocks (never returns) in the sleep-poll loop;
(4) when the state after the poll is not paused, it continues with `true`. -/
theorem integration_check_point_contract :
    (∀ (env : List (Option SlotContent)) (p p1 : Poller),
        pollOnce p = (Except.ok false, p1) →
        integrationCheckPoint env p = some (Except.ok false, p1)) ∧
    (∀ (env : List (Option SlotContent)) (p : Poller) (b : Bool) (p' : Poller),
        integrationCheckPoint env p = some (Except.ok b, p') →
        (b = true ∧ p'.state = ExecutionState.running) ∨
        (b = false ∧ p'.state = ExecutionState.stopped)) ∧
    (∀ (env : List (Option SlotContent)) (p p1 : Poller),
        pollOnce p = (Except.ok true, p1) → shouldPause p1 = true →
        waitWhilePaused env { p1 with log := p1.log ++ ["execution_paused"] } = none →
        integrationCheckPoint env p = none) ∧
    (∀ (env : List (Option SlotContent)) (p p1 : Poller),
        pollOnce p = (Except.ok true, p1) → shouldPause p1 = false →
        integrationCheckPoint env p = some (Except.ok true, p1)) := by
  refine ⟨?_, ?_, ?_, ?_⟩
  · intro env p p1 h
    simp [integrationCheckPoint, h]
  · intro env p b p' h
    simp only [integrationCheckPoint] at h
    cases hpoll : pollOnce p with
    | mk r p1 =>
      rw [hpoll] at h
      cases r with
      | error e => simp at h
      | ok bb =>
        cases bb with
        | false =>
          simp only [eq_self_iff_true, if_true, Option.some.injEq, Prod.mk.injEq,
            Except.ok.injEq] at h
          obtain ⟨hb, hp'⟩ := h
          subst hp'
          have hx := pollOnce_ok_bool hpoll
          exact Or.inr ⟨hb.symm,
            not_not.mp (of_decide_eq_false hx.symm)⟩
        | true =>
          simp only [Bool.true_eq_false, if_false] at h
          by_cases hps : shouldPause p1 = true
          · rw [if_pos hps] at h
            cases hw : waitWhilePaused env { p1 with log := p1.log ++ ["execution_paused"] } with
            | none => rw [hw] at h; simp at h
            | some rp =>
              rw [hw] at h
              cases rp with
              | mk res p3 =>
                cases res with
                | error e => simp at h
                | ok resb =>
                  have hwo := waitWhilePaused_ok env _ resb p3 hw
                  cases resb with
                  | true =>
                    simp only [eq_self_iff_true, if_true, Option.some.injEq,
                      Prod.mk.injEq, Except.ok.injEq] at h
                    obtain ⟨hb, hp'⟩ := h
                    subst hp'
                    rcases hwo with ⟨_, hrun⟩ | ⟨hfalse, _⟩
                    · exact Or.inl ⟨hb.symm, hrun⟩
                    · exact absurd hfalse (by simp)
                  | false =>
                    simp only [Bool.false_eq_true, if_false, Option.some.injEq,
                      Prod.mk.injEq, Except.ok.injEq] at h
                    obtain ⟨hb, hp'⟩ := h
                    subst hp'
                    rcases hwo with ⟨htrue, _⟩ | ⟨_, hstop⟩
                    · exact absurd htrue (by simp)
                    · exact Or.inr ⟨hb.symm, hstop⟩
          · rw [if_neg hps] at h
            simp only [Option.some.injEq, Prod.mk.injEq, Except.ok.injEq] at h
            obtain ⟨hb, hp'⟩ := h
            subst hp'
            have hx := pollOnce_ok_bool hpoll
            have hnotstop := of_decide_eq_true hx.symm
            cases hstate : p1.state with
            | running => exact Or.inl ⟨hb.symm, rfl⟩
            | paused => simp [shouldPause, hstate] at hps
            | stopped => exact absurd hstate hnotstop
  · intro env p p1 h hps hw
    simp only [integrationCheckPoint, h, hps, if_true, Bool.true_eq_false,
      if_false, hw]
  · intro env p p1 h hps
    simp only [integrationCheckPoint, h, hps, Bool.true_eq_false, if_false,
      Bool.false_eq_true]

/-- Witness for C2: (1) a pending `stop` makes the checkpoint return
`false` immediately; (2) a paused poller resumed by a later `resume` write
returns `true` in the RUNNING state; (3) a paused poller with no further
writes blocks; (4) a running poller with an empty slot continues. -/
theorem integration_check_point_contract_witness :
    integrationCheckPoint [] (writeCommand "stop" "t" initPoller) =
      some (Except.ok false,
        { state := ExecutionState.stopped, slot := SlotContent.missing,
          log := ["state_changed"] }) ∧
    ((true = true ∧
        ({ state := ExecutionState.running, slot := SlotContent.missing,
           log := ["execution_paused", "state_changed", "execution_resumed"] }
            : Poller).state = ExecutionState.running) ∨
     (true = false ∧
        ({ state := ExecutionState.running, slot := SlotContent.missing,
           log := ["execution_paused", "state_changed", "execution_resumed"] }
            : Poller).state = ExecutionState.stopped)) ∧
    integrationCheckPoint []
      { state := ExecutionState.paused, slot := SlotContent.missing, log := [] }
      = none ∧
    integrationCheckPoint [] initPoller = some (Except.ok true, initPoller) := by
  refine ⟨?_, ?_, ?_, ?_⟩
  · exact integration_check_point_contract.1 [] _ _ rfl
  · exact integration_check_point_contract.2.1
      [some (SlotContent.obj [("command", "resume"), ("timestamp", "t")])]
      { state := ExecutionState.paused, slot := SlotContent.missing, log := [] }
      true _ rfl
  · exact integration_check_point_contract.2.2.1 []
      { state := ExecutionState.paused, slot := SlotContent.missing, log := [] }
      _ rfl rfl rfl
  · exact integration_check_point_contract.2.2.2 [] initPoller _ rfl rfl

/-- C3 counterexample: write `stop`, poll twice.  The first poll applies the
command and clears the slot, but the second poll returns `false`, not the
claimed "continue" (`true`), because the state is now STOPPED. -/
theorem second_poll_after_stop_not_continue :
    (pollOnce (pollOnce (writeCommand "stop" "2024-01-01T00:00:00+00:00" initPoller)).2).1
      = Except.ok false ∧
    (pollOnce (writeCommand "stop" "2024-01-01T00:00:00+00:00" initPoller)).2.slot
      = SlotContent.missing :=
  ⟨rfl, rfl⟩

/-- C3 (amended): writing a valid command and polling once applies it to the
state exactly once and clears the slot; a second poll with no intervening
write applies no command and changes nothing, and it returns "continue"
(`true`) unless the state is now STOPPED — after a written `stop` the
second poll returns `false`. -/
theorem write_then_poll_twice (p : Poller) (cmd ts : String) (ct : CommandType)
    (hc : parseCommandType cmd = some ct) :
    ∃ p1 : Poller,
      pollOnce (writeCommand cmd ts p) =
        (Except.ok (decide (p1.state ≠ ExecutionState.stopped)), p1) ∧
      p1.state = applyCommand p.state ct ∧
      p1.slot = SlotContent.missing ∧
      pollOnce p1 = (Except.ok (decide (p1.state ≠ ExecutionState.stopped)), p1) := by
  obtain ⟨lg, h⟩ := pollOnce_after_write p cmd ts ct hc
  exact ⟨{ state := applyCommand p.state ct, slot := SlotContent.missing, log := lg },
    h, rfl, rfl, pollOnce_missing rfl⟩

/-- Witness for C3 (amended): writing `pause` from the initial running
poller, the first poll moves the state to PAUSED and removes the command
file, and the second poll is a no-op returning `true`. -/
theorem write_then_poll_twice_witness :
    (pollOnce (writeCommand "pause" "t" initPoller)).2.state = ExecutionState.paused ∧
    (pollOnce (writeCommand "pause" "t" initPoller)).2.slot = SlotContent.missing := by
  obtain ⟨p1, hpair, hstate, hslot, _⟩ :=
    write_then_poll_twice initPoller "pause" "t" CommandType.pause rfl
  rw [hpair]
  exact ⟨hstate, hslot⟩

/-- C8: when the poller is not already stopped, a slot whose content is
nonempty but not valid JSON makes `poll_once()` return `true` (continue)
without raising, leaves both the execution state and the slot unchanged,
and logs a `command_read_error` event. -/
theorem poll_once_invalid_json (p : Poller) (h : p.state ≠ ExecutionState.stopped)
    (hs : p.slot = SlotContent.malformed) :
    pollOnce p = (Except.ok true,
      { p with log := p.log ++ ["command_read_error"] }) := by
  rw [pollOnce_malformed hs]
  simp [h]

/-- Witness for C8: a running poller reading an unparsable slot. -/
theorem poll_once_invalid_json_witness :
    pollOnce { state := ExecutionState.running, slot := SlotContent.malformed, log := [] }
      = (Except.ok true,
         { state := ExecutionState.running, slot := SlotContent.malformed,
           log := ["command_read_error"] }) :=
  poll_once_invalid_json
    { state := ExecutionState.running, slot := SlotContent.malformed, log := [] }
    (by decide) rfl

/-- C10: `poll_once` clears the command slot only when its content parsed
as a (nonempty) JSON object; unparsable content and empty content leave
the file in place — the unparsable content is re-read and a read error is
re-logged by every subsequent poll, with the state untouched — and only a
new `write_command` overwrites the slot. -/
theorem slot_cleared_only_for_parsed_object :
    (∀ (p : Poller) (r : Except PyError Bool) (p' : Poller),
       pollOnce p = (r, p') → p'.slot ≠ p.slot →
       p'.slot = SlotContent.missing ∧
       ∃ fields, p.slot = SlotContent.obj fields ∧ fields ≠ []) ∧
    (∀ p : Poller, p.slot = SlotContent.malformed →
       pollOnce p = (Except.ok (decide (p.state ≠ ExecutionState.stopped)),
         { p with log := p.log ++ ["command_read_error"] })) ∧
    (∀ p : Poller, p.slot = SlotContent.empty →
       pollOnce p = (Except.ok (decide (p.state ≠ ExecutionState.stopped)), p)) ∧
    (∀ (p : Poller) (cmd ts : String),
       (writeCommand cmd ts p).slot =
         SlotContent.obj [("command", cmd), ("timestamp", ts)]) := by
  refine ⟨?_, ?_, ?_, fun p cmd ts => rfl⟩
  · intro p r p' h hne
    cases hs : p.slot with
    | missing =>
      rw [pollOnce_missing hs] at h
      injection h with h1 h2
      exact absurd (h2 ▸ rfl) hne
    | empty =>
      simp only [pollOnce, readCommands, hs] at h
      injection h with h1 h2
      exact absurd (h2 ▸ rfl) hne
    | malformed =>
      rw [pollOnce_malformed hs] at h
      injection h with h1 h2
      have hsl : p'.slot = p.slot := by rw [← h2]
      exact absurd hsl hne
    | scalarTruthy =>
      simp only [pollOnce, readCommands, hs, PyJson.truthy, processCommand,
        if_true] at h
      injection h with h1 h2
      exact absurd (h2 ▸ rfl) hne
    | scalarFalsy =>
      simp only [pollOnce, readCommands, hs, PyJson.truthy, Bool.false_eq_true,
        if_false] at h
      injection h with h1 h2
      exact absurd (h2 ▸ rfl) hne
    | obj fields =>
      by_cases hf : fields.isEmpty
      · simp only [pollOnce, readCommands, hs, PyJson.truthy, hf, Bool.not_true,
          Bool.false_eq_true, if_false] at h
        injection h with h1 h2
        exact absurd (h2 ▸ rfl) hne
      · obtain ⟨p2, hpc⟩ := processCommand_dict_ok p fields
        have hslot2 := processCommand_slot hpc
        simp only [pollOnce, readCommands, hs, PyJson.truthy, hf, Bool.not_false,
          if_true, hpc, clearCommands] at h
        injection h with h1 h2
        refine ⟨by rw [← h2], fields, rfl, ?_⟩
        intro hnil
        rw [hnil] at hf
        exact hf rfl
  · intro p hs
    exact pollOnce_malformed hs
  · intro p hs
    simp only [pollOnce, readCommands, hs]

/-- Witness for C10: a written `pause` record is an object slot that one
poll clears; a malformed slot survives a poll with a read error logged. -/
theorem slot_cleared_only_for_parsed_object_witness :
    ((pollOnce (writeCommand "pause" "t" initPoller)).2.slot = SlotContent.missing ∧
     ∃ fields, (writeCommand "pause" "t" initPoller).slot = SlotContent.obj fields ∧
       fields ≠ []) ∧
    pollOnce { state := ExecutionState.running, slot := SlotContent.malformed,
               log := ["earlier"] }
      = (Except.ok true,
         { state := ExecutionState.running, slot := SlotContent.malformed,
           log := ["earlier", "command_read_error"] }) := by
  constructor
  · exact slot_cleared_only_for_parsed_object.1 (writeCommand "pause" "t" initPoller)
      _ _ rfl (by decide)
  · have h := slot_cleared_only_for_parsed_object.2.1
      { state := ExecutionState.running, slot := SlotContent.malformed,
        log := ["earlier"] } rfl
    simpa using h

/-- C4: `execute_with_subagents` restores the execution stack on every exit
path, success and exception alike (the push is matched by the `finally`
pop); in particular an empty stack before a top-level call is empty again
after it. -/
theorem execution_stack_balanced (env : Env) (o : Orch) (taskId : String) :
    (executeWithSubagents env o taskId).2.execution_stack = o.execution_stack ∧
    (o.execution_stack = [] →
      (executeWithSubagents env o taskId).2.execution_stack = []) := by
  refine ⟨executeWithSubagents_stack env o taskId, fun hempty => ?_⟩
  rw [executeWithSubagents_stack env o taskId, hempty]

/-- Witness for C4: running the director scenario from an empty stack ends
with an empty stack. -/
theorem execution_stack_balanced_witness :
    (executeWithSubagents mockEnv directorSetup.2
      directorSetup.1.id).2.execution_stack = [] :=
  (execution_stack_balanced mockEnv directorSetup.2 directorSetup.1.id).2 rfl

set_option maxRecDepth 4000 in
/-- C5 counterexample: executing the task `"a"` while `"a"` is already on
the execution stack does not raise any invariant-violation error — the call
returns a normal successful result, publishes started/completed events for
the second run, and exits with the stack as it was. -/
theorem reentrant_execute_not_an_error :
    (executeWithSubagents mockEnv reentrantOrch "a").1 =
      Except.ok (ResultVal.agent true "[Mock] Executed echo-agent: hi...") ∧
    (executeWithSubagents mockEnv reentrantOrch "a").2.events =
      ["agent_started", "agent_completed"] ∧
    (executeWithSubagents mockEnv reentrantOrch "a").2.execution_stack = ["a"] :=
  ⟨rfl, rfl, rfl⟩

/-- C5 (amended): the code performs no re-entrancy check: calling
`execute_with_subagents` on a task whose id is already on the execution
stack raises no error — the id is pushed a second time and the task is
simply executed again; with the `Task` tool unavailable (the mock executor)
the re-entrant call completes normally, marks the task COMPLETED with the
new result, and restores the stack on exit. -/
theorem reentrant_execute_runs_again (env : Env) (o : Orch) (taskId : String)
    (t : SubAgentTask) (hl : o.tasks.lookup taskId = some t) (hid : t.id = taskId)
    (_hmem : taskId ∈ o.execution_stack)
    (hnd1 : t.agent_type ≠ "morgana-director")
    (hnd2 : t.agent_type ≠ "orchestrator")
    (hmock : env.taskToolAvailable = false) :
    ∃ (result : ResultVal) (o' : Orch),
      executeWithSubagents env o taskId = (Except.ok result, o') ∧
      o'.execution_stack = o.execution_stack ∧
      ∃ t', o'.tasks.lookup taskId = some t' ∧ t'.state = AgentState.completed ∧
        t'.result = some result := by
  have hstack := executeWithSubagents_stack env o taskId
  simp only [executeWithSubagents, hl, writeTask, publishEvent] at hstack ⊢
  rw [if_neg (not_or.mpr ⟨hnd1, hnd2⟩)] at hstack ⊢
  have hl3 : (setTask o.tasks ({ t with state := AgentState.running }).id
      { t with state := AgentState.running }).lookup taskId =
      some { t with state := AgentState.running } := by
    rw [lookup_setTask, if_pos]
    exact hid.symm
  obtain ⟨rv, o2, hagent, hstk2, t2, hl2, hid2⟩ :=
    executeAgent_mock env
      { tasks := setTask o.tasks ({ t with state := AgentState.running }).id
          { t with state := AgentState.running },
        execution_stack := o.execution_stack ++ [taskId],
        events := o.events ++ ["agent_started"], nextId := o.nextId }
      taskId { t with state := AgentState.running } hl3 hmock
  rw [hagent] at hstack ⊢
  simp only [hl2] at hstack ⊢
  refine ⟨rv, _, rfl, hstack, ?_⟩
  rw [lookup_setTask, if_pos]
  · exact ⟨_, rfl, rfl, rfl⟩
  · rw [hid2]
    exact hid.symm

/-- Witness for C5 (amended): the concrete re-entrant scenario completes
with the task marked COMPLETED. -/
theorem reentrant_execute_runs_again_witness :
    ∃ (result : ResultVal) (o' : Orch),
      executeWithSubagents mockEnv reentrantOrch "a" = (Except.ok result, o') ∧
      o'.execution_stack = reentrantOrch.execution_stack ∧
      ∃ t', o'.tasks.lookup "a" = some t' ∧ t'.state = AgentState.completed ∧
        t'.result = some result :=
  reentrant_execute_runs_again mockEnv reentrantOrch "a" reentrantTask rfl rfl
    (by decide) (by decide) (by decide) rfl

/-- C6 (amended): in a quiet environment, a director pipeline whose external
executor fails (raises) at stage k ∈ {1,2,3} ends with the director FAILED,
the error captured in its result and re-raised to the caller, stage k+1
never created (the director has exactly k children), the stack restored —
and none of the k created children is COMPLETED: the pipeline never updates
child states, so they all remain PENDING. -/
theorem director_pipeline_failfast (env : Env) (o : Orch) (did : String)
    (t : SubAgentTask) (e : String)
    (hl : o.tasks.lookup did = some t) (hid : t.id = did)
    (htype : t.agent_type = "morgana-director") (hch : t.children = [])
    (hfresh : ∀ n, o.nextId ≤ n → o.tasks.lookup (genId n) = none)
    (hpr : ∀ i, env.pauseRequested i = false)
    (hui : ∀ i, env.userInput i = none)
    (htool : env.taskToolAvailable = true) :
    ((∀ pr, env.exec "sprint-planner" pr = Except.error e) →
      ∃ o', executeWithSubagents env o did = (Except.error e, o') ∧
        o'.execution_stack = o.execution_stack ∧
        (∃ t', o'.tasks.lookup did = some t' ∧ t'.state = AgentState.failed ∧
          t'.result = some (ResultVal.failure e) ∧
          t'.children = [genId o.nextId]) ∧
        (∃ c, o'.tasks.lookup (genId o.nextId) = some c ∧
          c.state = AgentState.pending ∧ c.agent_type = "sprint-planner")) ∧
    ((∀ pr, ∃ out, env.exec "sprint-planner" pr = Except.ok out) →
     (∀ pr, env.exec "code-implementer" pr = Except.error e) →
      ∃ o', executeWithSubagents env o did = (Except.error e, o') ∧
        o'.execution_stack = o.execution_stack ∧
        (∃ t', o'.tasks.lookup did = some t' ∧ t'.state = AgentState.failed ∧
          t'.result = some (ResultVal.failure e) ∧
          t'.children = [genId o.nextId, genId (o.nextId + 1)]) ∧
        (∃ c, o'.tasks.lookup (genId o.nextId) = some c ∧
          c.state = AgentState.pending ∧ c.agent_type = "sprint-planner") ∧
        (∃ c, o'.tasks.lookup (genId (o.nextId + 1)) = some c ∧
          c.state = AgentState.pending ∧ c.agent_type = "code-implementer")) ∧
    ((∀ pr, ∃ out, env.exec "sprint-planner" pr = Except.ok out) →
     (∀ pr, ∃ out, env.exec "code-implementer" pr = Except.ok out) →
     (∀ pr, env.exec "test-specialist" pr = Except.error e) →
      ∃ o', executeWithSubagents env o did = (Except.error e, o') ∧
        o'.execution_stack = o.execution_stack ∧
        (∃ t', o'.tasks.lookup did = some t' ∧ t'.state = AgentState.failed ∧
          t'.result = some (ResultVal.failure e) ∧
          t'.children = [genId o.nextId, genId (o.nextId + 1),
            genId (o.nextId + 1 + 1)]) ∧
        (∃ c, o'.tasks.lookup (genId o.nextId) = some c ∧
          c.state = AgentState.pending ∧ c.agent_type = "sprint-planner") ∧
        (∃ c, o'.tasks.lookup (genId (o.nextId + 1)) = some c ∧
          c.state = AgentState.pending ∧ c.agent_type = "code-implementer") ∧
        (∃ c, o'.tasks.lookup (genId (o.nextId + 1 + 1)) = some c ∧
          c.state = AgentState.pending ∧ c.agent_type = "test-specialist")) := by
  have hdf : ∀ n, o.nextId ≤ n → did ≠ genId n := fun n hn h => by
    rw [h, hfresh n hn] at hl
    exact Option.noConfusion hl
  have hne0 : ¬ genId o.nextId = did := fun h => hdf _ (le_refl _) h.symm
  have hne1 : ¬ genId (o.nextId + 1) = did := fun h => hdf _ (Nat.le_succ _) h.symm
  have hne2 : ¬ genId (o.nextId + 1 + 1) = did :=
    fun h => hdf _ (Nat.le_add_right o.nextId 2) h.symm
  have hne01 : ¬ genId o.nextId = genId (o.nextId + 1) := fun h => by
    have := genId_injective h
    omega
  have hne02 : ¬ genId o.nextId = genId (o.nextId + 1 + 1) := fun h => by
    have := genId_injective h
    omega
  have hne12 : ¬ genId (o.nextId + 1) = genId (o.nextId + 1 + 1) := fun h => by
    have := genId_injective h
    omega
  have hl3 : (setTask o.tasks did { t with state := AgentState.running }).lookup did
      = some { t with state := AgentState.running } := by
    rw [lookup_setTask, if_pos rfl]
  refine ⟨?_, ?_, ?_⟩
  · intro hexec1
    have hbody := executeDirector_fail1 env
      { tasks := setTask o.tasks did { t with state := AgentState.running },
        execution_stack := o.execution_stack ++ [did],
        events := o.events ++ ["agent_started"], nextId := o.nextId }
      did { t with state := AgentState.running } e hl3 hid hdf hpr hui htool hexec1
    dsimp only at hbody
    have hlB : (setTask
        (setTask (setTask o.tasks did { t with state := AgentState.running })
          (genId o.nextId)
          { id := genId o.nextId, parent_id := some did,
            agent_type := "sprint-planner",
            prompt := "Plan the implementation for: " ++ t.prompt,
            state := AgentState.pending, result := none, children := [] })
        did { t with state := AgentState.running, children := t.children ++ [genId o.nextId] }).lookup did =
        some { t with state := AgentState.running, children := t.children ++ [genId o.nextId] } := by
      rw [lookup_setTask, if_pos rfl]
    have hfinal := executeWithSubagents_director_error env o did t e _ _
      hl hid htype hbody hlB hid
    dsimp only at hfinal
    refine ⟨_, hfinal, ?_, ?_, ?_⟩
    · dsimp only
      rw [List.dropLast_concat]
    · refine ⟨{ t with state := AgentState.failed, result := some (ResultVal.failure e), children := t.children ++ [genId o.nextId] }, ?_, rfl, rfl, ?_⟩
      · dsimp only
        rw [lookup_setTask, if_pos rfl]
      · dsimp only
        rw [hch]
        rfl
    · refine ⟨{ id := genId o.nextId, parent_id := some did, agent_type := "sprint-planner", prompt := "Plan the implementation for: " ++ t.prompt, state := AgentState.pending, result := none, children := [] }, ?_, rfl, rfl⟩
      dsimp only
      rw [lookup_setTask, if_neg hne0, lookup_setTask, if_neg hne0,
        lookup_setTask, if_pos rfl]
  · intro hexec1 hexec2
    obtain ⟨out1, hbody⟩ := executeDirector_fail2 env
      { tasks := setTask o.tasks did { t with state := AgentState.running },
        execution_stack := o.execution_stack ++ [did],
        events := o.events ++ ["agent_started"], nextId := o.nextId }
      did { t with state := AgentState.running } e hl3 hid hdf hpr hui htool
      hexec1 hexec2
    dsimp only at hbody
    have hlB : (setTask
        (setTask
          (setTask
            (setTask (setTask o.tasks did { t with state := AgentState.running })
              (genId o.nextId)
              { id := genId o.nextId, parent_id := some did,
                agent_type := "sprint-planner",
                prompt := "Plan the implementation for: " ++ t.prompt,
                state := AgentState.pending, result := none, children := [] })
            did { t with state := AgentState.running, children := t.children ++ [genId o.nextId] })
          (genId (o.nextId + 1))
          { id := genId (o.nextId + 1), parent_id := some did,
            agent_type := "code-implementer",
            prompt := "Implement based on plan: " ++ out1,
            state := AgentState.pending, result := none, children := [] })
        did { t with state := AgentState.running, children := t.children ++ [genId o.nextId] ++ [genId (o.nextId + 1)] }).lookup did =
        some { t with state := AgentState.running, children := t.children ++ [genId o.nextId] ++ [genId (o.nextId + 1)] } := by
      rw [lookup_setTask, if_pos rfl]
    have hfinal := executeWithSubagents_director_error env o did t e _ _
      hl hid htype hbody hlB hid
    dsimp only at hfinal
    refine ⟨_, hfinal, ?_, ?_, ?_, ?_⟩
    · dsimp only
      rw [List.dropLast_concat]
    · refine ⟨{ t with state := AgentState.failed, result := some (ResultVal.failure e), children := t.children ++ [genId o.nextId] ++ [genId (o.nextId + 1)] }, ?_, rfl, rfl, ?_⟩
      · dsimp only
        rw [lookup_setTask, if_pos rfl]
      · dsimp only
        rw [hch]
        rfl
    · refine ⟨{ id := genId o.nextId, parent_id := some did, agent_type := "sprint-planner", prompt := "Plan the implementation for: " ++ t.prompt, state := AgentState.pending, result := none, children := [] }, ?_, rfl, rfl⟩
      dsimp only
      rw [lookup_setTask, if_neg hne0, lookup_setTask, if_neg hne0,
        lookup_setTask, if_neg hne01, lookup_setTask, if_neg hne0,
        lookup_setTask, if_pos rfl]
    · refine ⟨{ id := genId (o.nextId + 1), parent_id := some did, agent_type := "code-implementer", prompt := "Implement based on plan: " ++ out1, state := AgentState.pending, result := none, children := [] }, ?_, rfl, rfl⟩
      dsimp only
      rw [lookup_setTask, if_neg hne1, lookup_setTask, if_neg hne1,
        lookup_setTask, if_pos rfl]
  · intro hexec1 hexec2 hexec3
    obtain ⟨out1, out2, hbody⟩ := executeDirector_fail3 env
      { tasks := setTask o.tasks did { t with state := AgentState.running },
        execution_stack := o.execution_stack ++ [did],
        events := o.events ++ ["agent_started"], nextId := o.nextId }
      did { t with state := AgentState.running } e hl3 hid hdf hpr hui htool
      hexec1 hexec2 hexec3
    dsimp only at hbody
    have hlB : (setTask
        (setTask
          (setTask
            (setTask
              (setTask
                (setTask (setTask o.tasks did { t with state := AgentState.running })
                  (genId o.nextId)
                  { id := genId o.nextId, parent_id := some did,
                    agent_type := "sprint-planner",
                    prompt := "Plan the implementation for: " ++ t.prompt,
                    state := AgentState.pending, result := none, children := [] })
                did { t with state := AgentState.running, children := t.children ++ [genId o.nextId] })
              (genId (o.nextId + 1))
              { id := genId (o.nextId + 1), parent_id := some did,
                agent_type := "code-implementer",
                prompt := "Implement based on plan: " ++ out1,
                state := AgentState.pending, result := none, children := [] })
            did { t with state := AgentState.running, children := t.children ++ [genId o.nextId] ++ [genId (o.nextId + 1)] })
          (genId (o.nextId + 1 + 1))
          { id := genId (o.nextId + 1 + 1), parent_id := some did,
            agent_type := "test-specialist",
            prompt := "Create tests for: " ++ out2,
            state := AgentState.pending, result := none, children := [] })
        did { t with state := AgentState.running, children := t.children ++ [genId o.nextId] ++ [genId (o.nextId + 1)] ++ [genId (o.nextId + 1 + 1)] }).lookup did =
        some { t with state := AgentState.running, children := t.children ++ [genId o.nextId] ++ [genId (o.nextId + 1)] ++ [genId (o.nextId + 1 + 1)] } := by
      rw [lookup_setTask, if_pos rfl]
    have hfinal := executeWithSubagents_director_error env o did t e _ _
      hl hid htype hbody hlB hid
    dsimp only at hfinal
    refine ⟨_, hfinal, ?_, ?_, ?_, ?_, ?_⟩
    · dsimp only
      rw [List.dropLast_concat]
    · refine ⟨{ t with state := AgentState.failed, result := some (ResultVal.failure e), children := t.children ++ [genId o.nextId] ++ [genId (o.nextId + 1)] ++ [genId (o.nextId + 1 + 1)] }, ?_, rfl, rfl, ?_⟩
      · dsimp only
        rw [lookup_setTask, if_pos rfl]
      · dsimp only
        rw [hch]
        rfl
    · refine ⟨{ id := genId o.nextId, parent_id := some did, agent_type := "sprint-planner", prompt := "Plan the implementation for: " ++ t.prompt, state := AgentState.pending, result := none, children := [] }, ?_, rfl, rfl⟩
      dsimp only
      rw [lookup_setTask, if_neg hne0, lookup_setTask, if_neg hne0,
        lookup_setTask, if_neg hne02, lookup_setTask, if_neg hne0,
        lookup_setTask, if_neg hne01, lookup_setTask, if_neg hne0,
        lookup_setTask, if_pos rfl]
    · refine ⟨{ id := genId (o.nextId + 1), parent_id := some did, agent_type := "code-implementer", prompt := "Implement based on plan: " ++ out1, state := AgentState.pending, result := none, children := [] }, ?_, rfl, rfl⟩
      dsimp only
      rw [lookup_setTask, if_neg hne1, lookup_setTask, if_neg hne1,
        lookup_setTask, if_neg hne12, lookup_setTask, if_neg hne1,
        lookup_setTask, if_pos rfl]
    · refine ⟨{ id := genId (o.nextId + 1 + 1), parent_id := some did, agent_type := "test-specialist", prompt := "Create tests for: " ++ out2, state := AgentState.pending, result := none, children := [] }, ?_, rfl, rfl⟩
      dsimp only
      rw [lookup_setTask, if_neg hne2, lookup_setTask, if_neg hne2,
        lookup_setTask, if_pos rfl]

/-- C6 counterexample: in the concrete director scenario with an executor
that succeeds at stage 1 and fails at stage 2 (k = 2), the claim's "exactly
k−1 = 1 child tasks are in state COMPLETED" is false: the director is
FAILED and both created children remain PENDING — zero children are
COMPLETED. -/
theorem director_stage2_fail_children_not_completed :
    (executeWithSubagents failStage2Env directorSetup.2 (genId 0)).1 =
      Except.error "boom" ∧
    ((executeWithSubagents failStage2Env directorSetup.2
        (genId 0)).2.tasks.lookup (genId 0)).map SubAgentTask.state =
      some AgentState.failed ∧
    ((executeWithSubagents failStage2Env directorSetup.2
        (genId 0)).2.tasks.lookup (genId 1)).map SubAgentTask.state =
      some AgentState.pending ∧
    ((executeWithSubagents failStage2Env directorSetup.2
        (genId 0)).2.tasks.lookup (genId 2)).map SubAgentTask.state =
      some AgentState.pending ∧
    ((executeWithSubagents failStage2Env directorSetup.2 (genId 0)).2.tasks.filter
        (fun kv => decide (kv.2.parent_id = some (genId 0) ∧
          kv.2.state = AgentState.completed))).length = 0 :=
  ⟨rfl, rfl, rfl, rfl, rfl⟩

/-- Witness for C6 (amended): the concrete stage-2 failure re-raises the
error and restores the empty stack. -/
theorem director_pipeline_failfast_witness :
    (executeWithSubagents failStage2Env directorSetup.2 (genId 0)).1 =
      Except.error "boom" ∧
    (executeWithSubagents failStage2Env directorSetup.2
      (genId 0)).2.execution_stack = [] := by
  obtain ⟨o', heq, hstack, _⟩ :=
    (director_pipeline_failfast failStage2Env directorSetup.2 (genId 0)
      directorSetup.1 "boom" rfl rfl rfl rfl directorSetup_fresh
      (fun _ => rfl) (fun _ => rfl) rfl).2.1
      (fun _ => ⟨"done by " ++ "sprint-planner", rfl⟩) (fun _ => rfl)
  rw [heq]
  exact ⟨rfl, hstack.trans rfl⟩

/-- C7 (amended): in a quiet environment with the code's own mock executor
(which always succeeds), a director task spawns exactly 3 children —
planner, implementer, tester — completes with the aggregate result carrying
the 3 child ids and the per-stage results, and restores the stack; but the
3 children do NOT end in state COMPLETED: the pipeline never updates child
states, so all three remain PENDING. -/
theorem director_pipeline_success (env : Env) (o : Orch) (did : String)
    (t : SubAgentTask)
    (hl : o.tasks.lookup did = some t) (hid : t.id = did)
    (htype : t.agent_type = "morgana-director") (hch : t.children = [])
    (hfresh : ∀ n, o.nextId ≤ n → o.tasks.lookup (genId n) = none)
    (hpr : ∀ i, env.pauseRequested i = false)
    (hui : ∀ i, env.userInput i = none)
    (hmock : env.taskToolAvailable = false) :
    ∃ (o' : Orch) (r1 r2 r3 : ResultVal),
      executeWithSubagents env o did =
        (Except.ok (ResultVal.director "Completed orchestration with 3 sub-agents"
          [genId o.nextId, genId (o.nextId + 1), genId (o.nextId + 1 + 1)]
          r1 r2 r3), o') ∧
      o'.execution_stack = o.execution_stack ∧
      (∃ t', o'.tasks.lookup did = some t' ∧ t'.state = AgentState.completed ∧
        t'.result = some
          (ResultVal.director "Completed orchestration with 3 sub-agents"
            [genId o.nextId, genId (o.nextId + 1), genId (o.nextId + 1 + 1)]
            r1 r2 r3) ∧
        t'.children = [genId o.nextId, genId (o.nextId + 1),
          genId (o.nextId + 1 + 1)]) ∧
      (∃ c, o'.tasks.lookup (genId o.nextId) = some c ∧
        c.state = AgentState.pending ∧ c.agent_type = "sprint-planner") ∧
      (∃ c, o'.tasks.lookup (genId (o.nextId + 1)) = some c ∧
        c.state = AgentState.pending ∧ c.agent_type = "code-implementer") ∧
      (∃ c, o'.tasks.lookup (genId (o.nextId + 1 + 1)) = some c ∧
        c.state = AgentState.pending ∧ c.agent_type = "test-specialist") := by
  have hdf : ∀ n, o.nextId ≤ n → did ≠ genId n := fun n hn h => by
    rw [h, hfresh n hn] at hl
    exact Option.noConfusion hl
  have hne0 : ¬ genId o.nextId = did := fun h => hdf _ (le_refl _) h.symm
  have hne1 : ¬ genId (o.nextId + 1) = did := fun h => hdf _ (Nat.le_succ _) h.symm
  have hne2 : ¬ genId (o.nextId + 1 + 1) = did :=
    fun h => hdf _ (Nat.le_add_right o.nextId 2) h.symm
  have hne01 : ¬ genId o.nextId = genId (o.nextId + 1) := fun h => by
    have := genId_injective h
    omega
  have hne02 : ¬ genId o.nextId = genId (o.nextId + 1 + 1) := fun h => by
    have := genId_injective h
    omega
  have hne12 : ¬ genId (o.nextId + 1) = genId (o.nextId + 1 + 1) := fun h => by
    have := genId_injective h
    omega
  have hl3 : (setTask o.tasks did { t with state := AgentState.running }).lookup did
      = some { t with state := AgentState.running } := by
    rw [lookup_setTask, if_pos rfl]
  obtain ⟨m1, m2, m3, hbody⟩ := executeDirector_mock_success env
    { tasks := setTask o.tasks did { t with state := AgentState.running },
      execution_stack := o.execution_stack ++ [did],
      events := o.events ++ ["agent_started"], nextId := o.nextId }
    did { t with state := AgentState.running } hl3 hid hdf hpr hui hmock
  dsimp only at hbody
  have hlB : (setTask
      (setTask
        (setTask
          (setTask
            (setTask
              (setTask (setTask o.tasks did { t with state := AgentState.running })
                (genId o.nextId)
                { id := genId o.nextId, parent_id := some did,
                  agent_type := "sprint-planner",
                  prompt := "Plan the implementation for: " ++ t.prompt,
                  state := AgentState.pending, result := none, children := [] })
              did { t with state := AgentState.running, children := t.children ++ [genId o.nextId] })
            (genId (o.nextId + 1))
            { id := genId (o.nextId + 1), parent_id := some did,
              agent_type := "code-implementer",
              prompt := "Implement based on plan: " ++ m1,
              state := AgentState.pending, result := none, children := [] })
          did { t with state := AgentState.running, children := t.children ++ [genId o.nextId] ++ [genId (o.nextId + 1)] })
        (genId (o.nextId + 1 + 1))
        { id := genId (o.nextId + 1 + 1), parent_id := some did,
          agent_type := "test-specialist",
          prompt := "Create tests for: " ++ m2,
          state := AgentState.pending, result := none, children := [] })
      did { t with state := AgentState.running, children := t.children ++ [genId o.nextId] ++ [genId (o.nextId + 1)] ++ [genId (o.nextId + 1 + 1)] }).lookup
        did =
      some { t with state := AgentState.running, children := t.children ++ [genId o.nextId] ++ [genId (o.nextId + 1)] ++ [genId (o.nextId + 1 + 1)] } := by
    rw [lookup_setTask, if_pos rfl]
  have hfinal := executeWithSubagents_director_ok env o did t _ _ _
    hl hid htype hbody hlB hid
  dsimp only at hfinal
  refine ⟨_, ResultVal.agent true m1, ResultVal.agent true m2,
    ResultVal.agent true m3, hfinal, ?_, ?_, ?_, ?_, ?_⟩
  · dsimp only
    rw [List.dropLast_concat]
  · refine ⟨{ t with
      state := AgentState.completed,
      result := some (ResultVal.director "Completed orchestration with 3 sub-agents"
        [genId o.nextId, genId (o.nextId + 1), genId (o.nextId + 1 + 1)]
        (ResultVal.agent true m1) (ResultVal.agent true m2)
        (ResultVal.agent true m3)),
      children := t.children ++ [genId o.nextId] ++ [genId (o.nextId + 1)]
        ++ [genId (o.nextId + 1 + 1)] },
      ?_, rfl, rfl, ?_⟩
    · dsimp only
      rw [lookup_setTask, if_pos rfl]
    · dsimp only
      rw [hch]
      rfl
  · refine ⟨({ id := genId o.nextId, parent_id := some did, agent_type := "sprint-planner", prompt := "Plan the implementation for: " ++ t.prompt, state := AgentState.pending, result := none, children := [] } : SubAgentTask), ?_, rfl, rfl⟩
    dsimp only
    rw [lookup_setTask, if_neg hne0, lookup_setTask, if_neg hne0,
      lookup_setTask, if_neg hne02, lookup_setTask, if_neg hne0,
      lookup_setTask, if_neg hne01, lookup_setTask, if_neg hne0,
      lookup_setTask, if_pos rfl]
  · refine ⟨({ id := genId (o.nextId + 1), parent_id := some did, agent_type := "code-implementer", prompt := "Implement based on plan: " ++ m1, state := AgentState.pending, result := none, children := [] } : SubAgentTask), ?_, rfl, rfl⟩
    dsimp only
    rw [lookup_setTask, if_neg hne1, lookup_setTask, if_neg hne1,
      lookup_setTask, if_neg hne12, lookup_setTask, if_neg hne1,
      lookup_setTask, if_pos rfl]
  · refine ⟨({ id := genId (o.nextId + 1 + 1), parent_id := some did, agent_type := "test-specialist", prompt := "Create tests for: " ++ m2, state := AgentState.pending, result := none, children := [] } : SubAgentTask), ?_, rfl, rfl⟩
    dsimp only
    rw [lookup_setTask, if_neg hne2, lookup_setTask, if_neg hne2,
      lookup_setTask, if_pos rfl]

/-- C7 counterexample: in the concrete scenario — a director with the mock
executor that always succeeds — the director completes but its planner
child ends PENDING, not COMPLETED as the claim states (likewise the other
two children). -/
theorem director_success_children_not_completed :
    ((executeWithSubagents mockEnv directorSetup.2
        (genId 0)).2.tasks.lookup (genId 0)).map SubAgentTask.state =
      some AgentState.completed ∧
    ((executeWithSubagents mockEnv directorSetup.2
        (genId 0)).2.tasks.lookup (genId 1)).map SubAgentTask.state =
      some AgentState.pending ∧
    ((executeWithSubagents mockEnv directorSetup.2
        (genId 0)).2.tasks.lookup (genId 2)).map SubAgentTask.state =
      some AgentState.pending ∧
    ((executeWithSubagents mockEnv directorSetup.2
        (genId 0)).2.tasks.lookup (genId 3)).map SubAgentTask.state =
      some AgentState.pending :=
  ⟨rfl, rfl, rfl, rfl⟩

/-- Witness for C7 (amended): the concrete mock-director run completes with
the aggregate result and an empty stack. -/
theorem director_pipeline_success_witness :
    ∃ (o' : Orch) (r1 r2 r3 : ResultVal),
      executeWithSubagents mockEnv directorSetup.2 (genId 0) =
        (Except.ok (ResultVal.director "Completed orchestration with 3 sub-agents"
          [genId 1, genId (1 + 1), genId (1 + 1 + 1)] r1 r2 r3), o') ∧
      o'.execution_stack = directorSetup.2.execution_stack ∧
      (∃ t', o'.tasks.lookup (genId 0) = some t' ∧
        t'.state = AgentState.completed ∧
        t'.result = some
          (ResultVal.director "Completed orchestration with 3 sub-agents"
            [genId 1, genId (1 + 1), genId (1 + 1 + 1)] r1 r2 r3) ∧
        t'.children = [genId 1, genId (1 + 1), genId (1 + 1 + 1)]) ∧
      (∃ c, o'.tasks.lookup (genId 1) = some c ∧
        c.state = AgentState.pending ∧ c.agent_type = "sprint-planner") ∧
      (∃ c, o'.tasks.lookup (genId (1 + 1)) = some c ∧
        c.state = AgentState.pending ∧ c.agent_type = "code-implementer") ∧
      (∃ c, o'.tasks.lookup (genId (1 + 1 + 1)) = some c ∧
        c.state = AgentState.pending ∧ c.agent_type = "test-specialist") :=
  director_pipeline_success mockEnv directorSetup.2 (genId 0) directorSetup.1
    rfl rfl rfl rfl directorSetup_fresh (fun _ => rfl) (fun _ => rfl) rfl

/-- C9 counterexample: `task_failed` stores a 1200-character error message
verbatim — longer than both truncation bounds actually used (503 for
prompts, 1003 for outputs), so error fields are not truncated to any fixed
bound before storage. -/
theorem task_failed_error_not_truncated :
    (task_failed "t1" (List.replicate 1200 'e')).text =
      [("error", List.replicate 1200 'e')] ∧
    (List.replicate 1200 'e').length = 1200 := by
  constructor
  · rfl
  · simp only [List.length_replicate]

/-- C9 (amended): prompts in `task_started` are truncated to at most 503
characters and outputs in `task_completed` to at most 1003 characters
before storage, but error messages in `task_failed` are stored verbatim,
with no truncation. -/
theorem event_text_truncation (taskId : String) (prompt output error : List Char) :
    ((((task_started taskId prompt).text.lookup "prompt").getD []).length ≤ 503) ∧
    ((((task_completed taskId output).text.lookup "output").getD []).length ≤ 1003) ∧
    ((task_failed taskId error).text.lookup "error" = some error) := by
  refine ⟨?_, ?_, rfl⟩
  · have h : (((task_started taskId prompt).text.lookup "prompt").getD []) =
        if prompt.length > 500 then prompt.take 500 ++ ['.', '.', '.'] else prompt := by
      simp [task_started, List.lookup]
    rw [h]
    split
    · simp only [List.length_append, List.length_take, List.length_cons,
        List.length_nil]
      omega
    · omega
  · have h : (((task_completed taskId output).text.lookup "output").getD []) =
        if output.length > 1000 then output.take 1000 ++ ['.', '.', '.'] else output := by
      simp [task_completed, List.lookup]
    rw [h]
    split
    · simp only [List.length_append, List.length_take, List.length_cons,
        List.length_nil]
      omega
    · omega

end Morgana
